import Mathlib

/-!
Verification of the e-commerce backend's pricing, coupon, order, CSV-import,
login-lockout, security-middleware and best-selling-cache logic.

Python floats are modelled as rationals (ℚ), datetimes as integer seconds,
SQLAlchemy tables as Lean lists, and `.first()` queries as `List.find?`.
-/

namespace ECommerce

/-- Python's builtin `min` on two floats (returns the first argument on ties).
Defined explicitly so concrete values reduce in the kernel. -/
def pymin (a b : ℚ) : ℚ :=
  if b < a then b else a

/-! ## Data model (app/models) -/

structure Role where
  id : Nat
  slug : String
  deriving DecidableEq, Repr

structure User where
  id : Nat
  roles : List Role
  deriving DecidableEq, Repr

structure Product where
  id : Nat
  price : ℚ
  offerPrice : Option ℚ
  stock : Int
  isAlwaysInStock : Bool
  maxPerBuy : Option Nat
  deriving DecidableEq, Repr

structure PriceList where
  id : Nat
  roleFilter : Option String
  isActive : Bool
  deriving DecidableEq, Repr

structure PriceListItem where
  id : Nat
  priceListId : Nat
  productId : Nat
  price : ℚ
  deriving DecidableEq, Repr

/-- The tables consulted by `PriceListPricingStrategy`. -/
structure PricingDB where
  priceLists : List PriceList
  priceListItems : List PriceListItem
  deriving DecidableEq, Repr

/-! ## app/services/price_calculator.py -/

/-- `BasePricingStrategy.calculate_price`: return product's base price. -/
def basePricingCalculatePrice (product : Product) : ℚ :=
  product.price

/-- `db.query(PriceList).filter(role_filter == slug, is_active == True).first()`.
SQL `NULL == x` never matches, hence the `Option` comparison. -/
def findActivePriceList (d : PricingDB) (slug : String) : Option PriceList :=
  d.priceLists.find? (fun pl => pl.roleFilter == some slug && pl.isActive)

/-- `db.query(PriceListItem).filter(price_list_id == .., product_id == ..).first()`. -/
def findPriceListItem (d : PricingDB) (priceListId productId : Nat) : Option PriceListItem :=
  d.priceListItems.find? (fun it => it.priceListId == priceListId && it.productId == productId)

/-- The `for role in user_roles` loop of `PriceListPricingStrategy.calculate_price`:
the first role with an active matching price list containing an item for the
product sets the price and breaks; otherwise `applicable_price` is unchanged. -/
def priceListRoleLoop (roles : List Role) (d : PricingDB) (product : Product)
    (applicablePrice : ℚ) : ℚ :=
  match roles with
  | [] => applicablePrice
  | role :: rest =>
    match findActivePriceList d role.slug with
    | some pl =>
      match findPriceListItem d pl.id product.id with
      | some item => item.price
      | none => priceListRoleLoop rest d product applicablePrice
    | none => priceListRoleLoop rest d product applicablePrice

/-- The tail of `PriceListPricingStrategy.calculate_price`:
`if product.offer_price and product.offer_price > 0: applicable_price =
min(applicable_price, product.offer_price)`.  Python truthiness of a float is
`≠ 0`, hence the two conjuncts. -/
def applyOfferPrice (product : Product) (applicablePrice : ℚ) : ℚ :=
  match product.offerPrice with
  | some op => if op ≠ 0 ∧ 0 < op then pymin applicablePrice op else applicablePrice
  | none => applicablePrice

/-- `PriceListPricingStrategy.calculate_price`. -/
def priceListPricingCalculatePrice (product : Product) (user : Option User)
    (db : Option PricingDB) : ℚ :=
  match user, db with
  | some u, some d => applyOfferPrice product (priceListRoleLoop u.roles d product product.price)
  | _, _ => product.price

/-- `PriceCalculator.get_product_price`. -/
def getProductPrice (product : Product) (user : Option User) (db : Option PricingDB) : ℚ :=
  match user, db with
  | some u, some d => priceListPricingCalculatePrice product (some u) (some d)
  | _, _ => basePricingCalculatePrice product

/-! ## app/models/coupon.py -/

inductive DiscountType where
  | percentage
  | fixed
  deriving DecidableEq, Repr

structure Coupon where
  id : Nat
  code : String
  discountType : DiscountType
  discountValue : ℚ
  minOrderAmount : ℚ
  maxUses : Option Nat
  currentUses : Nat
  maxUsesPerUser : Option Nat
  isActive : Bool
  validFrom : Option Int
  validTo : Option Int
  assignedUsers : List Nat
  deriving DecidableEq, Repr

/-- `Coupon.calculate_discount`. -/
def calculateDiscount (c : Coupon) (orderTotal : ℚ) : ℚ :=
  if orderTotal < c.minOrderAmount then 0
  else
    let discount :=
      match c.discountType with
      | DiscountType.percentage => orderTotal * c.discountValue / 100
      | DiscountType.fixed => c.discountValue
    pymin discount orderTotal

/-! ## app/services/coupon.py -/

/-- A row of the `orders` table, as consulted by `Coupon.can_be_used_by_user`
(only the columns the coupon logic reads). -/
structure OrderRow where
  userId : Nat
  couponId : Option Nat
  deriving DecidableEq, Repr

/-- The tables consulted by `CouponService.validate_coupon`. -/
structure CouponDB where
  coupons : List Coupon
  orders : List OrderRow
  deriving DecidableEq, Repr

/-- Python `str.upper()` (ASCII suffices for coupon codes); written on the
character list so concrete values reduce in the kernel. -/
def upperString (s : String) : String :=
  ⟨s.data.map Char.toUpper⟩

/-- `CouponService.get_by_code`: `db.query(Coupon).filter(Coupon.code == code.upper()).first()`. -/
def getByCode (db : CouponDB) (code : String) : Option Coupon :=
  db.coupons.find? (fun c => c.code == upperString code)

/-- `Coupon.is_valid` at time `now`.  Python truthiness: `if self.max_uses and ...`
is false for `None` and for `0`. -/
def couponIsValid (c : Coupon) (now : Int) : Bool :=
  if !c.isActive then false
  else if match c.validFrom with | some vf => decide (now < vf) | none => false then false
  else if match c.validTo with | some vt => decide (vt < now) | none => false then false
  else if match c.maxUses with
          | some m => m != 0 && decide (m ≤ c.currentUses)
          | none => false then false
  else true

/-- The per-user usage count: `db.query(Order).filter(user_id == .., coupon_id == ..).count()`. -/
def couponUsageCount (db : CouponDB) (userId : Nat) (couponId : Nat) : Nat :=
  (db.orders.filter (fun o => o.userId == userId && o.couponId == some couponId)).length

/-- `Coupon.can_be_used_by_user`. -/
def canBeUsedByUser (c : Coupon) (userId : Nat) (db : CouponDB) : Bool :=
  if c.assignedUsers != [] && !(c.assignedUsers.contains userId) then false
  else if match c.maxUsesPerUser with
          | some m => m != 0 && decide (m ≤ couponUsageCount db userId c.id)
          | none => false then false
  else true

/-- The result tuple of `CouponService.validate_coupon`:
`(is_valid, message, discount_amount, coupon)`. -/
structure CouponValidation where
  isValid : Bool
  message : String
  discountAmount : Option ℚ
  coupon : Option Coupon
  deriving DecidableEq, Repr

/-- The reasons list built when `coupon.is_valid()` is false (the
`strftime` date formatting inside the messages is elided). -/
def couponInvalidReasons (c : Coupon) (now : Int) : List String :=
  (if !c.isActive then ["Coupon is inactive"] else []) ++
  (match c.validFrom with
   | some vf => if now < vf then ["Coupon is not valid yet"] else []
   | none => []) ++
  (match c.validTo with
   | some vt => if vt < now then ["Coupon expired"] else []
   | none => []) ++
  (match c.maxUses with
   | some m => if m != 0 && decide (m ≤ c.currentUses) then ["Coupon usage limit reached"] else []
   | none => [])

/-- The tail of `validate_coupon` after the `can_be_used_by_user` block falls
through: the minimum-order check and the valid result. -/
def validateCouponRest (c : Coupon) (orderTotal : ℚ) : CouponValidation :=
  if orderTotal < c.minOrderAmount then
    ⟨false, "Order total must be at least the minimum to use this coupon", none, none⟩
  else
    ⟨true, "Coupon is valid", some (calculateDiscount c orderTotal), some c⟩

/-- `CouponService.validate_coupon`.  Note the `can_be_used_by_user` branch
re-derives the reason with the same two checks; if neither inner check fires,
control falls through to the minimum-order check exactly as in the source. -/
def validateCoupon (db : CouponDB) (code : String) (userId : Nat) (orderTotal : ℚ)
    (now : Int) : CouponValidation :=
  match getByCode db code with
  | none => ⟨false, "Coupon not found", none, none⟩
  | some c =>
    if !couponIsValid c now then
      ⟨false, String.intercalate "; " (couponInvalidReasons c now), none, none⟩
    else if !canBeUsedByUser c userId db then
      if c.assignedUsers != [] && !(c.assignedUsers.contains userId) then
        ⟨false, "This coupon is not available for your account", none, none⟩
      else if match c.maxUsesPerUser with | some m => m != 0 | none => false then
        ⟨false, "You have already used this coupon the maximum number of times", none, none⟩
      else
        validateCouponRest c orderTotal
    else
      validateCouponRest c orderTotal

/-! ## app/services/product.py — `import_products_from_csv`

The loop is modelled generically over the per-row processing step: `process`
takes the session state (database plus category/brand caches) and one CSV row
and either extends the state and yields a `Product` for the batch, or raises a
validation error message.  The loop itself (row numbering from 2, batching,
commit bookkeeping) is translated from the source. -/

structure CSVImportError where
  row : Nat
  error : String
  deriving DecidableEq, Repr

structure CSVImportResult where
  totalRows : Nat
  successful : Nat
  failed : Nat
  errors : List CSVImportError
  message : String
  deriving DecidableEq, Repr

/-- The `for row_num, row in enumerate(csv_reader, start=2)` loop with batch
commits, followed by the final `if batch:` commit.  Returns the state, the
committed products, the `successful` counter, the errors, and `total_rows`. -/
def csvImportLoop {Row σ π : Type} (process : σ → Row → Except String (σ × π))
    (batchSize : Nat) :
    List Row → σ → Nat → List π → List π → Nat → List CSVImportError → Nat →
    σ × List π × Nat × List CSVImportError × Nat
  | [], st, _, batch, committed, successful, errors, total =>
    -- `if batch: db.add_all(batch); db.commit(); successful += len(batch)`
    (st, committed ++ batch, successful + batch.length, errors, total)
  | row :: rest, st, rowNum, batch, committed, successful, errors, total =>
    match process st row with
    | Except.ok (st2, prod) =>
      let batch2 := batch ++ [prod]
      if batchSize ≤ batch2.length then
        csvImportLoop process batchSize rest st2 (rowNum + 1) [] (committed ++ batch2)
          (successful + batch2.length) errors (total + 1)
      else
        csvImportLoop process batchSize rest st2 (rowNum + 1) batch2 committed
          successful errors (total + 1)
    | Except.error e =>
      csvImportLoop process batchSize rest st (rowNum + 1) batch committed
        successful (errors ++ [⟨rowNum, e⟩]) (total + 1)

/-- `ProductService.import_products_from_csv`, from the point where the header
has passed the required-columns check.  Returns the result and the committed
products. -/
def importProductsFromCsv {Row σ π : Type} (process : σ → Row → Except String (σ × π))
    (batchSize : Nat) (rows : List Row) (st : σ) : CSVImportResult × List π :=
  let out := csvImportLoop process batchSize rows st 2 [] [] 0 [] 0
  let committed := out.2.1
  let successful := out.2.2.1
  let errors := out.2.2.2.1
  let total := out.2.2.2.2
  let failed := errors.length
  let message :=
    "Import completed: " ++ toString successful ++ " products imported successfully" ++
      (if 0 < failed then ", " ++ toString failed ++ " products failed" else "")
  (⟨total, successful, failed, errors, message⟩, committed)

/-- Modelled from the spec: the per-row errors the claim predicts — one entry
per failing data row, carrying the row's CSV line number (starting at 2) and
the error message.  Used to compare the implementation's error list against
the claim's description. -/
def specRowErrors {Row σ π : Type} (process : σ → Row → Except String (σ × π)) :
    List Row → σ → Nat → List CSVImportError
  | [], _, _ => []
  | row :: rest, st, rowNum =>
    match process st row with
    | Except.ok (st2, _) => specRowErrors process rest st2 (rowNum + 1)
    | Except.error e => ⟨rowNum, e⟩ :: specRowErrors process rest st (rowNum + 1)

/-- The number of rows that process successfully (for the commit count). -/
def specOkCount {Row σ π : Type} (process : σ → Row → Except String (σ × π)) :
    List Row → σ → Nat
  | [], _ => 0
  | row :: rest, st =>
    match process st row with
    | Except.ok (st2, _) => specOkCount process rest st2 + 1
    | Except.error _ => specOkCount process rest st

/-! ## app/services/order.py — `OrderService.create_order` -/

structure OrderItemCreate where
  productId : Nat
  quantity : Nat
  deriving DecidableEq, Repr

structure OrderCreate where
  addressId : Option Nat
  physicalStoreId : Option Nat
  items : List OrderItemCreate
  deriving DecidableEq, Repr

structure AddressRow where
  id : Nat
  userId : Nat
  deriving DecidableEq, Repr

structure PhysicalStoreRow where
  id : Nat
  isActive : Bool
  deriving DecidableEq, Repr

/-- One entry of `order_items_data` / one created `OrderItem`. -/
structure OrderItemRecord where
  productId : Nat
  quantity : Nat
  price : ℚ
  deriving DecidableEq, Repr

structure Order where
  userId : Nat
  addressId : Option Nat
  physicalStoreId : Option Nat
  totalAmount : ℚ
  items : List OrderItemRecord
  deriving DecidableEq, Repr

/-- The tables `create_order` touches.  The pricing tables are carried along
to express that order creation never reads them. -/
structure OrderDB where
  products : List Product
  addresses : List AddressRow
  physicalStores : List PhysicalStoreRow
  pricing : PricingDB
  deriving DecidableEq, Repr

def findProduct (db : OrderDB) (pid : Nat) : Option Product :=
  db.products.find? (fun p => p.id == pid)

/-- The `for item in order_in.items` validation-and-pricing loop.  Errors carry
the HTTP status code: 404 for a missing product, 400 for insufficient stock or
a `max_per_buy` violation.  When `product.max_per_buy` is NULL the Python
comparison `item.quantity > product.max_per_buy` raises `TypeError`, surfacing
as an HTTP 500 — modelled as error 500. -/
def processOrderItems (db : OrderDB) :
    List OrderItemCreate → ℚ → List OrderItemRecord → Except Nat (ℚ × List OrderItemRecord)
  | [], totalAmount, recs => Except.ok (totalAmount, recs)
  | item :: rest, totalAmount, recs =>
    match findProduct db item.productId with
    | none => Except.error 404
    | some product =>
      if !product.isAlwaysInStock && decide (product.stock < (item.quantity : Int)) then
        Except.error 400
      else
        match product.maxPerBuy with
        | none => Except.error 500
        | some m =>
          if decide (m < item.quantity) then Except.error 400
          else
            processOrderItems db rest (totalAmount + product.price * item.quantity)
              (recs ++ [⟨product.id, item.quantity, product.price⟩])

/-- The stock decrement loop: for each `item_data`, re-query the product and
`product.stock -= quantity`. -/
def updateStockForItems (products : List Product) (items : List OrderItemCreate) : List Product :=
  items.foldl
    (fun ps it =>
      ps.map (fun p => if p.id == it.productId then { p with stock := p.stock - it.quantity } else p))
    products

/-- The order-construction phase of `create_order`, after the delivery-target
validation (cart clearing is not modelled; the cart table is disjoint from
everything the claims mention). -/
def createOrderItemsPhase (db : OrderDB) (userId : Nat) (orderIn : OrderCreate) :
    Except Nat (Order × OrderDB) :=
  match processOrderItems db orderIn.items 0 [] with
  | Except.error e => Except.error e
  | Except.ok (total, recs) =>
    Except.ok
      (⟨userId, orderIn.addressId, orderIn.physicalStoreId, total, recs⟩,
       { db with products := updateStockForItems db.products orderIn.items })

/-- `OrderService.create_order`.  The two leading validations raise HTTP 400
when both or neither of `address_id` / `physical_store_id` are given; a missing
address or inactive store raises HTTP 404. -/
def createOrder (db : OrderDB) (userId : Nat) (orderIn : OrderCreate) :
    Except Nat (Order × OrderDB) :=
  match orderIn.addressId, orderIn.physicalStoreId with
  | some _, some _ => Except.error 400
  | none, none => Except.error 400
  | some a, none =>
    match db.addresses.find? (fun ad => ad.id == a && ad.userId == userId) with
    | none => Except.error 404
    | some _ => createOrderItemsPhase db userId orderIn
  | none, some s =>
    match db.physicalStores.find? (fun ps => ps.id == s && ps.isActive) with
    | none => Except.error 404
    | some _ => createOrderItemsPhase db userId orderIn

/-- Total quantity of a given product requested across the order's items
(duplicated product ids accumulate, as the sequential decrements do). -/
def requestedQuantity (items : List OrderItemCreate) (pid : Nat) : Nat :=
  ((items.filter (fun it => it.productId == pid)).map (fun it => it.quantity)).sum

/-! ## app/core/auth_security.py — `LoginAttemptTracker` -/

/-- `security_settings.MAX_LOGIN_ATTEMPTS` (app/core/config.py). -/
def MAX_LOGIN_ATTEMPTS : Nat := 5

/-- `security_settings.ACCOUNT_LOCKOUT_DURATION` in seconds (app/core/config.py). -/
def ACCOUNT_LOCKOUT_DURATION : Int := 900

/-- The tracker's two dictionaries; `failed_attempts` is a `defaultdict(list)`,
so absent keys read as `[]`.  Times are in seconds. -/
structure LoginTracker where
  failedAttempts : String → List Int
  lockedAccounts : String → Option Int

/-- `LoginAttemptTracker.record_failed_attempt` (the `ip` argument is only
logged and is dropped). -/
def recordFailedAttempt (s : LoginTracker) (identifier : String) (now : Int) : LoginTracker :=
  let pruned := (s.failedAttempts identifier).filter (fun t => now - t < 3600)
  let attempts := pruned ++ [now]
  let fa := Function.update s.failedAttempts identifier attempts
  if MAX_LOGIN_ATTEMPTS ≤ attempts.length then
    { failedAttempts := fa,
      lockedAccounts := Function.update s.lockedAccounts identifier (some now) }
  else
    { s with failedAttempts := fa }

/-- `LoginAttemptTracker.record_successful_login`. -/
def recordSuccessfulLogin (s : LoginTracker) (identifier : String) : LoginTracker :=
  { failedAttempts := Function.update s.failedAttempts identifier [],
    lockedAccounts := Function.update s.lockedAccounts identifier none }

/-- `LoginAttemptTracker.is_locked`: returns the boolean and the (possibly
cleaned-up) tracker state. -/
def isLocked (s : LoginTracker) (identifier : String) (now : Int) : Bool × LoginTracker :=
  match s.lockedAccounts identifier with
  | none => (false, s)
  | some lockedTime =>
    if ACCOUNT_LOCKOUT_DURATION < now - lockedTime then
      (false,
       { failedAttempts := Function.update s.failedAttempts identifier [],
         lockedAccounts := Function.update s.lockedAccounts identifier none })
    else
      (true, s)

/-! ## app/middleware/security.py — rate limiting

Config constants from app/core/config.py. -/

def RATE_LIMIT_PER_MINUTE : Nat := 60
def RATE_LIMIT_PER_HOUR : Nat := 1000
def RATE_LIMIT_LOGIN_PER_MINUTE : Nat := 5
def RATE_LIMIT_LOGIN_PER_HOUR : Nat := 20
def MAX_REQUEST_SIZE : Nat := 10485760

/-- `RateLimitEntry`: the per-IP timestamp lists. -/
structure RateLimitEntry where
  minuteRequests : List Int
  hourRequests : List Int
  loginMinuteRequests : List Int
  loginHourRequests : List Int
  deriving DecidableEq, Repr

def RateLimitEntry.empty : RateLimitEntry := ⟨[], [], [], []⟩

/-- `is_login = "/auth/login" in path or "/auth/register" in path`; substring
containment over the characters of the path. -/
def hasSubstr (needle : List Char) : List Char → Bool
  | [] => needle.isEmpty
  | c :: rest => needle.isPrefixOf (c :: rest) || hasSubstr needle rest

def isLoginPath (path : String) : Bool :=
  hasSubstr "/auth/login".data path.data || hasSubstr "/auth/register".data path.data

/-- The `is_login` block of `_check_rate_limit`: prune the login lists, reject
when a login limit is hit, otherwise append `now` to both login lists.  For a
non-login request the entry passes through untouched. -/
def rateLimitLoginStage (e : RateLimitEntry) (now : Int) (isLogin : Bool) :
    Bool × RateLimitEntry :=
  if !isLogin then (true, e)
  else
    let e2 := { e with
      loginMinuteRequests := e.loginMinuteRequests.filter (fun t => now - t < 60),
      loginHourRequests := e.loginHourRequests.filter (fun t => now - t < 3600) }
    if RATE_LIMIT_LOGIN_PER_MINUTE ≤ e2.loginMinuteRequests.length then (false, e2)
    else if RATE_LIMIT_LOGIN_PER_HOUR ≤ e2.loginHourRequests.length then (false, e2)
    else
      (true, { e2 with
        loginMinuteRequests := e2.loginMinuteRequests ++ [now],
        loginHourRequests := e2.loginHourRequests ++ [now] })

/-- The general-limit block of `_check_rate_limit` (the lists were already
pruned at entry). -/
def rateLimitGeneralStage (e : RateLimitEntry) (now : Int) : Bool × RateLimitEntry :=
  if RATE_LIMIT_PER_MINUTE ≤ e.minuteRequests.length then (false, e)
  else if RATE_LIMIT_PER_HOUR ≤ e.hourRequests.length then (false, e)
  else
    (true, { e with
      minuteRequests := e.minuteRequests ++ [now],
      hourRequests := e.hourRequests ++ [now] })

/-- `SecurityMiddleware._check_rate_limit` for one IP's entry.  `enabled` is
`security_settings.RATE_LIMIT_ENABLED` (default true, environment-overridable). -/
def checkRateLimit (e : RateLimitEntry) (now : Int) (isLogin : Bool) (enabled : Bool) :
    Bool × RateLimitEntry :=
  if !enabled then (true, e)
  else
    let e1 := { e with
      minuteRequests := e.minuteRequests.filter (fun t => now - t < 60),
      hourRequests := e.hourRequests.filter (fun t => now - t < 3600) }
    match rateLimitLoginStage e1 now isLogin with
    | (false, e2) => (false, e2)
    | (true, e2) => rateLimitGeneralStage e2 now

/-- One processed request of a single client IP's trace, annotated with
whether the login-stage appends happened and whether it was accepted. -/
structure TracedRequest where
  time : Int
  isLogin : Bool
  loginPassed : Bool
  accepted : Bool
  deriving DecidableEq, Repr

/-- Run a trace of `(time, is_login)` requests for one IP through the enabled
rate limiter, annotating each request. -/
def runRateTrace (e : RateLimitEntry) : List (Int × Bool) → List TracedRequest × RateLimitEntry
  | [] => ([], e)
  | (now, lg) :: rest =>
    let e1 := { e with
      minuteRequests := e.minuteRequests.filter (fun t => now - t < 60),
      hourRequests := e.hourRequests.filter (fun t => now - t < 3600) }
    let stage1 := rateLimitLoginStage e1 now lg
    let step :=
      match stage1 with
      | (false, e2) => (false, e2)
      | (true, e2) => rateLimitGeneralStage e2 now
    let out := runRateTrace step.2 rest
    (⟨now, lg, lg && stage1.1, step.1⟩ :: out.1, out.2)

/-- Times of the accepted requests in an annotated trace. -/
def acceptedTimes (l : List TracedRequest) : List Int :=
  (l.filter (fun r => r.accepted)).map (fun r => r.time)

/-- Times of the requests that passed the login stage (these received the
login-list appends, whether or not they were finally accepted). -/
def loginPassedTimes (l : List TracedRequest) : List Int :=
  (l.filter (fun r => r.loginPassed)).map (fun r => r.time)

/-- Times of the accepted login-path requests. -/
def acceptedLoginTimes (l : List TracedRequest) : List Int :=
  (l.filter (fun r => r.accepted && r.isLogin)).map (fun r => r.time)

/-- How many of the times `ts` fall in the window of width `w` ending at `now`
(the pruning predicate `now - t < w`). -/
def countWindow (w now : Int) (ts : List Int) : Nat :=
  (ts.filter (fun t => now - t < w)).length

/-- The rate-limiter state invariant: after the last general prune at time `τ`
and the last login prune at time `τL ≤ τ`, the entry's four lists are exactly
the in-window accepted times `acc` (general) and login-stage-passed times `lp`
(login). -/
structure RLInv (τ τL : Int) (acc lp : List Int) (e : RateLimitEntry) : Prop where
  hτL : τL ≤ τ
  minute : e.minuteRequests = acc.filter (fun t => τ - t < 60)
  hour : e.hourRequests = acc.filter (fun t => τ - t < 3600)
  lmin : e.loginMinuteRequests = lp.filter (fun t => τL - t < 60)
  lhour : e.loginHourRequests = lp.filter (fun t => τL - t < 3600)

/-! ## app/middleware/security.py — SQL-injection / XSS detection

A small backtracking matcher implementing exactly the regex constructs those
patterns use (`re.search` with `re.IGNORECASE`, no MULTILINE/DOTALL):
case-insensitive literals, character classes (`.` excluding newline, `[^>]`,
`\w`, `\s`, `\d`) with `*`/`+`, word boundaries `\b`, and `$`.  Laziness
(`.*?`) is irrelevant to whether a match exists.  The matcher is written with
explicit fuel so that concrete inputs reduce in the kernel; the fuel
`s.length * (ps.length + 1) + ps.length + 1` bounds the recursion, which
shrinks the lexicographic measure (length of input, length of pattern) at
every step (the token list never grows). -/

def lowerEq (a b : Char) : Bool := a.toLower == b.toLower

def isWordChar (c : Char) : Bool := c.isAlphanum || c == '_'

def isSpaceChar (c : Char) : Bool :=
  c == ' ' || c == '\t' || c == '\n' || c == '\r' || c == '\x0b' || c == '\x0c'

def isDigitChar (c : Char) : Bool := c.isDigit

/-- `.` in a pattern without DOTALL: any character except newline. -/
def anyChar (c : Char) : Bool := c != '\n'

/-- `[^>]`. -/
def notGt (c : Char) : Bool := c != '>'

/-- Regex tokens: a case-insensitive literal, one character of a class, zero
or more characters of a class, a word boundary, and `$`. -/
inductive RTok where
  | lit (c : Char)
  | one (f : Char → Bool)
  | star (f : Char → Bool)
  | wb
  | eol

/-- `\b`: the word-character status differs on the two sides (string edges
count as non-word). -/
def boundaryOk (prev : Option Char) (next : Option Char) : Bool :=
  (match prev with | some c => isWordChar c | none => false) !=
    (match next with | some c => isWordChar c | none => false)

/-- Does some prefix of `s` match the token list?  `prev` is the character
just before the current position (for `\b`). -/
def matchToksF : Nat → List RTok → Option Char → List Char → Bool
  | 0, _, _, _ => false
  | Nat.succ fuel, ps, prev, s =>
    match ps, s with
    | [], _ => true
    | RTok.lit _ :: _, [] => false
    | RTok.lit c :: ps2, d :: s2 => lowerEq c d && matchToksF fuel ps2 (some d) s2
    | RTok.one _ :: _, [] => false
    | RTok.one f :: ps2, d :: s2 => f d && matchToksF fuel ps2 (some d) s2
    | RTok.star f :: ps2, s1 =>
      matchToksF fuel ps2 prev s1 ||
        (match s1 with
         | [] => false
         | d :: s2 => f d && matchToksF fuel (RTok.star f :: ps2) (some d) s2)
    | RTok.wb :: ps2, s1 => boundaryOk prev s1.head? && matchToksF fuel ps2 prev s1
    | RTok.eol :: ps2, s1 => (s1.isEmpty || s1 == ['\n']) && matchToksF fuel ps2 prev s1

def matchToks (ps : List RTok) (prev : Option Char) (s : List Char) : Bool :=
  matchToksF (s.length * (ps.length + 1) + ps.length + 1) ps prev s

/-- `re.search`: try every start position. -/
def reSearch (ps : List RTok) (prev : Option Char) (s : List Char) : Bool :=
  matchToks ps prev s ||
    match s with
    | [] => false
    | d :: s2 => reSearch ps (some d) s2

def litToks (s : String) : List RTok :=
  s.data.map RTok.lit

/-- The apostrophe character. -/
def quoteChar : Char := Char.ofNat 39

/-- `(\bUNION\b.*\bSELECT\b)` -/
def patUnionSelect : List RTok :=
  [RTok.wb] ++ litToks "UNION" ++ [RTok.wb, RTok.star anyChar, RTok.wb] ++
    litToks "SELECT" ++ [RTok.wb]

/-- `(\bDROP\b.*\bTABLE\b)` -/
def patDropTable : List RTok :=
  [RTok.wb] ++ litToks "DROP" ++ [RTok.wb, RTok.star anyChar, RTok.wb] ++
    litToks "TABLE" ++ [RTok.wb]

/-- `(\bINSERT\b.*\bINTO\b)` -/
def patInsertInto : List RTok :=
  [RTok.wb] ++ litToks "INSERT" ++ [RTok.wb, RTok.star anyChar, RTok.wb] ++
    litToks "INTO" ++ [RTok.wb]

/-- `(\bDELETE\b.*\bFROM\b)` -/
def patDeleteFrom : List RTok :=
  [RTok.wb] ++ litToks "DELETE" ++ [RTok.wb, RTok.star anyChar, RTok.wb] ++
    litToks "FROM" ++ [RTok.wb]

/-- `(\bEXEC\b.*\()` -/
def patExec : List RTok :=
  [RTok.wb] ++ litToks "EXEC" ++ [RTok.wb, RTok.star anyChar, RTok.lit '(']

/-- `(--\s*$)` -/
def patDashDash : List RTok :=
  [RTok.lit '-', RTok.lit '-', RTok.star isSpaceChar, RTok.eol]

/-- `(;\s*DROP\s+)` -/
def patSemiDrop : List RTok :=
  [RTok.lit ';', RTok.star isSpaceChar] ++ litToks "DROP" ++
    [RTok.one isSpaceChar, RTok.star isSpaceChar]

/-- `('.*OR.*'.*=.*')` -/
def patQuoteOr : List RTok :=
  [RTok.lit quoteChar, RTok.star anyChar] ++ litToks "OR" ++
    [RTok.star anyChar, RTok.lit quoteChar, RTok.star anyChar, RTok.lit '=',
     RTok.star anyChar, RTok.lit quoteChar]

/-- `(1=1)` -/
def patOneEqOne : List RTok :=
  litToks "1=1"

/-- `(\bOR\b.*\d+\s*=\s*\d+)` -/
def patOrNumEq : List RTok :=
  [RTok.wb] ++ litToks "OR" ++
    [RTok.wb, RTok.star anyChar, RTok.one isDigitChar, RTok.star isDigitChar,
     RTok.star isSpaceChar, RTok.lit '=', RTok.star isSpaceChar,
     RTok.one isDigitChar, RTok.star isDigitChar]

def sqlPatterns : List (List RTok) :=
  [patUnionSelect, patDropTable, patInsertInto, patDeleteFrom, patExec,
   patDashDash, patSemiDrop, patQuoteOr, patOneEqOne, patOrNumEq]

/-- `SecurityMiddleware._detect_sql_injection`. -/
def detectSqlInjection (value : String) : Bool :=
  sqlPatterns.any (fun p => reSearch p none value.data)

/-- `<script[^>]*>.*?</script>` -/
def patScriptTag : List RTok :=
  litToks "<script" ++ [RTok.star notGt, RTok.lit '>', RTok.star anyChar] ++
    litToks "</script>"

/-- `javascript:` -/
def patJsColon : List RTok :=
  litToks "javascript:"

/-- `on\w+\s*=` -/
def patOnHandler : List RTok :=
  [RTok.lit 'o', RTok.lit 'n', RTok.one isWordChar, RTok.star isWordChar,
   RTok.star isSpaceChar, RTok.lit '=']

/-- `<iframe` -/
def patIframe : List RTok := litToks "<iframe"

/-- `<object` -/
def patObjectTag : List RTok := litToks "<object"

/-- `<embed` -/
def patEmbedTag : List RTok := litToks "<embed"

def xssPatterns : List (List RTok) :=
  [patScriptTag, patJsColon, patOnHandler, patIframe, patObjectTag, patEmbedTag]

/-- `SecurityMiddleware._detect_xss`. -/
def detectXss (value : String) : Bool :=
  xssPatterns.any (fun p => reSearch p none value.data)

/-- `SecurityMiddleware._validate_request_size`: the Content-Length header,
absent or within `MAX_REQUEST_SIZE`. -/
def validateRequestSize (contentLength : Option Nat) : Bool :=
  match contentLength with
  | none => true
  | some n => !(decide (MAX_REQUEST_SIZE < n))

/-- The middleware's possible outcomes: the three early JSON rejections, the
pattern-detection 400, or passing the request to the route handler. -/
inductive MwOutcome where
  | forbidden            -- HTTP 403
  | tooManyRequests      -- HTTP 429
  | requestTooLarge      -- HTTP 413
  | badRequest           -- HTTP 400
  | passedThrough        -- call_next(request)
  deriving DecidableEq, Repr

/-- `SecurityMiddleware.dispatch` for one request.  `blocked` abstracts
`_is_ip_blocked` (a database/auto-block lookup) and `whitelisted` abstracts
`_is_ip_whitelisted`; both are computed outside the pure model.  The rate
limiter state is this client's `RateLimitEntry`. -/
def dispatch (blocked whitelisted : Bool) (e : RateLimitEntry) (now : Int)
    (path query : String) (contentLength : Option Nat) (rateLimitEnabled : Bool) :
    MwOutcome × RateLimitEntry :=
  if blocked then (MwOutcome.forbidden, e)
  else if hasSubstr "/admin".data path.data && !whitelisted then (MwOutcome.forbidden, e)
  else
    match checkRateLimit e now (isLoginPath path) rateLimitEnabled with
    | (false, e2) => (MwOutcome.tooManyRequests, e2)
    | (true, e2) =>
      if !validateRequestSize contentLength then (MwOutcome.requestTooLarge, e2)
      else if detectSqlInjection query then (MwOutcome.badRequest, e2)
      else if detectXss query then (MwOutcome.badRequest, e2)
      else (MwOutcome.passedThrough, e2)

/-! ## app/services/best_selling.py -/

/-- `settings.CACHE_TTL` (app/core/config.py). -/
def CACHE_TTL : Nat := 300

/-- A row of the `order_items` table as read by the best-sellers query. -/
structure SoldItem where
  productId : Nat
  quantity : Nat
  deriving DecidableEq, Repr

structure BestSellingDB where
  products : List Product
  orderItems : List SoldItem
  deriving DecidableEq, Repr

/-- `func.sum(OrderItem.quantity)` grouped by product. -/
def totalSold (items : List SoldItem) (pid : Nat) : Nat :=
  (items.filter (fun it => it.productId == pid)).foldl (fun acc it => acc + it.quantity) 0

/-- `BestSellingService.get_cache_key`. -/
def getCacheKey (limit : Nat) : String :=
  "best_selling:limit:" ++ toString limit

/-- A Redis SETEX call: key, value (the JSON-encoded id list), TTL seconds. -/
structure CacheWrite where
  key : String
  ids : List Nat
  ttl : Nat
  deriving DecidableEq, Repr

/-- `BestSellingService.get_best_selling_products` with Redis available.
`cache` is the current value under the limit's key (`none` = miss).  Returns
the products and the cache write performed, if any.  The inner join keeps only
products with at least one order item; ties in the SQL `ORDER BY ... DESC` are
resolved here by a stable sort.  The per-product pricing annotations
(`compare_prices`) decorate the returned objects and are not modelled. -/
def getBestSellingProducts (db : BestSellingDB) (cache : Option (List Nat))
    (limit : Nat) : List Product × Option CacheWrite :=
  match cache with
  | some ids =>
    (ids.filterMap (fun pid => db.products.find? (fun p => p.id == pid)), none)
  | none =>
    let sellers :=
      (db.products.filter (fun p => db.orderItems.any (fun it => it.productId == p.id))).mergeSort
        (fun a b => decide (totalSold db.orderItems b.id ≤ totalSold db.orderItems a.id))
    let products := sellers.take limit
    let write :=
      if products.isEmpty then none
      else some ⟨getCacheKey limit, products.map (fun p => p.id), CACHE_TTL⟩
    (products, write)

/-! ## Concrete fixtures used by witnesses and counterexamples -/

def exC1Product : Product :=
  { id := 1, price := 200, offerPrice := some 50, stock := 3,
    isAlwaysInStock := false, maxPerBuy := some 10 }

def exC1User : User := { id := 7, roles := [{ id := 1, slug := "wholesale" }] }

def exC1PriceList : PriceList := { id := 1, roleFilter := some "wholesale", isActive := true }

def exC1Item : PriceListItem := { id := 1, priceListId := 1, productId := 1, price := 100 }

def exC1Db : PricingDB := { priceLists := [exC1PriceList], priceListItems := [exC1Item] }

def exC2Coupon : Coupon :=
  { id := 1, code := "SAVE10", discountType := DiscountType.percentage, discountValue := 10,
    minOrderAmount := 50, maxUses := none, currentUses := 0, maxUsesPerUser := some 1,
    isActive := true, validFrom := none, validTo := none, assignedUsers := [] }

def exC3Coupon : Coupon :=
  { id := 3, code := "SAVE10", discountType := DiscountType.percentage, discountValue := 10,
    minOrderAmount := 50, maxUses := some 100, currentUses := 2, maxUsesPerUser := some 1,
    isActive := true, validFrom := some 0, validTo := some 1000, assignedUsers := [] }

def exC3Db : CouponDB := { coupons := [exC3Coupon], orders := [] }

def exC5Product : Product :=
  { id := 1, price := 10, offerPrice := none, stock := 0,
    isAlwaysInStock := false, maxPerBuy := some 5 }

def exC5Db : OrderDB :=
  { products := [exC5Product], addresses := [{ id := 1, userId := 7 }],
    physicalStores := [], pricing := { priceLists := [], priceListItems := [] } }

def exC5Order : OrderCreate :=
  { addressId := some 1, physicalStoreId := none,
    items := [{ productId := 2, quantity := 1 }, { productId := 1, quantity := 5 }] }

def exC6Product : Product :=
  { id := 1, price := 10, offerPrice := some 4, stock := 10,
    isAlwaysInStock := false, maxPerBuy := some 5 }

def exC6Db : OrderDB :=
  { products := [exC6Product], addresses := [{ id := 1, userId := 7 }],
    physicalStores := [],
    pricing := { priceLists := [{ id := 1, roleFilter := some "wholesale", isActive := true }],
                 priceListItems := [{ id := 1, priceListId := 1, productId := 1, price := 6 }] } }

def exC6Order : OrderCreate :=
  { addressId := some 1, physicalStoreId := none,
    items := [{ productId := 1, quantity := 1 }] }

def exC5Order2 : OrderCreate :=
  { addressId := some 1, physicalStoreId := none,
    items := [{ productId := 1, quantity := 5 }] }

def exC10Product : Product :=
  { id := 1, price := 5, offerPrice := none, stock := 10,
    isAlwaysInStock := false, maxPerBuy := some 5 }

def exC10Db : BestSellingDB :=
  { products := [exC10Product], orderItems := [{ productId := 1, quantity := 3 }] }

def exC7Tracker : LoginTracker :=
  { failedAttempts := fun _ => [10, 20, 30, 40], lockedAccounts := fun _ => none }

def exC6ResultOrder : Order :=
  { userId := 7, addressId := some 1, physicalStoreId := none, totalAmount := 10,
    items := [{ productId := 1, quantity := 1, price := 10 }] }

def exC6ResultDb : OrderDB :=
  { products := [{ id := 1, price := 10, offerPrice := some 4, stock := 9,
                   isAlwaysInStock := false, maxPerBuy := some 5 }],
    addresses := [{ id := 1, userId := 7 }], physicalStores := [],
    pricing := { priceLists := [{ id := 1, roleFilter := some "wholesale", isActive := true }],
                 priceListItems := [{ id := 1, priceListId := 1, productId := 1, price := 6 }] } }

/-! # Theorems -/

/-! ## C1 — role/price-list pricing (`PriceCalculator.get_product_price`) -/

theorem pymin_le_right (a b : ℚ) : pymin a b ≤ b := by
  unfold pymin
  split
  · exact le_refl b
  · exact le_of_not_lt (by assumption)

theorem priceListRoleLoop_first_match (d : PricingDB) (p : Product) (acc : ℚ)
    (pre post : List Role) (r : Role) (pl : PriceList) (item : PriceListItem)
    (hpre : ∀ r2 ∈ pre, ∀ pl2, findActivePriceList d r2.slug = some pl2 →
      findPriceListItem d pl2.id p.id = none)
    (hpl : findActivePriceList d r.slug = some pl)
    (hitem : findPriceListItem d pl.id p.id = some item) :
    priceListRoleLoop (pre ++ r :: post) d p acc = item.price := by
  induction pre with
  | nil => simp [priceListRoleLoop, hpl, hitem]
  | cons r2 rest ih =>
    cases hfind : findActivePriceList d r2.slug with
    | none =>
      simp only [List.cons_append, priceListRoleLoop, hfind]
      exact ih (fun r3 hr3 => hpre r3 (List.mem_cons_of_mem _ hr3))
    | some pl2 =>
      simp only [List.cons_append, priceListRoleLoop, hfind,
        hpre r2 (List.mem_cons_self _ _) pl2 hfind]
      exact ih (fun r3 hr3 => hpre r3 (List.mem_cons_of_mem _ hr3))

theorem priceListRoleLoop_no_match (d : PricingDB) (p : Product) (acc : ℚ)
    (roles : List Role)
    (hnone : ∀ r ∈ roles, ∀ pl, findActivePriceList d r.slug = some pl →
      findPriceListItem d pl.id p.id = none) :
    priceListRoleLoop roles d p acc = acc := by
  induction roles with
  | nil => rfl
  | cons r rest ih =>
    cases hfind : findActivePriceList d r.slug with
    | none =>
      simp only [priceListRoleLoop, hfind]
      exact ih (fun r3 hr3 => hnone r3 (List.mem_cons_of_mem _ hr3))
    | some pl =>
      simp only [priceListRoleLoop, hfind, hnone r (List.mem_cons_self _ _) pl hfind]
      exact ih (fun r3 hr3 => hnone r3 (List.mem_cons_of_mem _ hr3))

/-- C1 counterexample.  The user's single role matches the active price list
`exC1PriceList`, which contains `exC1Item` (price 100) for the product, yet
`get_product_price` does not return the item's price: the product's positive
`offer_price` of 50 is lower and wins the final `min`. -/
theorem claimC1_counterexample :
    exC1User.roles = [{ id := 1, slug := "wholesale" }] ∧
    findActivePriceList exC1Db "wholesale" = some exC1PriceList ∧
    findPriceListItem exC1Db exC1PriceList.id exC1Product.id = some exC1Item ∧
    exC1Item.price = 100 ∧
    getProductPrice exC1Product (some exC1User) (some exC1Db) ≠ exC1Item.price := by
  refine ⟨rfl, by decide, by decide, by decide, by decide⟩

/-- C1 amended: when the user's first role (in role-list order) whose slug has
an active price list containing an item for the product yields item price P,
`get_product_price` returns P adjusted by the offer price (`min P offer` when
the offer price is set and positive); with user and session but no such match
it returns the base price adjusted the same way; with no user or no session it
returns the base price unadjusted. -/
theorem claimC1_amended_spec (p : Product) :
    (∀ (u : User) (d : PricingDB) (pre post : List Role) (r : Role) (pl : PriceList)
        (item : PriceListItem),
      u.roles = pre ++ r :: post →
      (∀ r2 ∈ pre, ∀ pl2, findActivePriceList d r2.slug = some pl2 →
        findPriceListItem d pl2.id p.id = none) →
      findActivePriceList d r.slug = some pl →
      findPriceListItem d pl.id p.id = some item →
      getProductPrice p (some u) (some d) = applyOfferPrice p item.price) ∧
    (∀ (u : User) (d : PricingDB),
      (∀ r ∈ u.roles, ∀ pl, findActivePriceList d r.slug = some pl →
        findPriceListItem d pl.id p.id = none) →
      getProductPrice p (some u) (some d) = applyOfferPrice p p.price) ∧
    (∀ (uOpt : Option User) (dOpt : Option PricingDB),
      uOpt = none ∨ dOpt = none → getProductPrice p uOpt dOpt = p.price) := by
  refine ⟨?_, ?_, ?_⟩
  · intro u d pre post r pl item hroles hpre hpl hitem
    simp only [getProductPrice, priceListPricingCalculatePrice, hroles]
    rw [priceListRoleLoop_first_match d p p.price pre post r pl item hpre hpl hitem]
  · intro u d hnone
    simp only [getProductPrice, priceListPricingCalculatePrice]
    rw [priceListRoleLoop_no_match d p p.price u.roles hnone]
  · intro uOpt dOpt h
    rcases h with rfl | rfl
    · cases dOpt <;> rfl
    · cases uOpt <;> rfl

theorem claimC1_amended_spec_witness :
    getProductPrice exC1Product (some exC1User) (some exC1Db) =
      applyOfferPrice exC1Product exC1Item.price :=
  (claimC1_amended_spec exC1Product).1 exC1User exC1Db [] []
    { id := 1, slug := "wholesale" } exC1PriceList exC1Item rfl
    (fun r2 hr2 => absurd hr2 (List.not_mem_nil r2)) (by decide) (by decide)

/-! ## C2 — `Coupon.calculate_discount` -/

/-- C2: at or above the minimum order amount the discount is the percentage
formula (for percentage coupons) or the fixed value (for fixed coupons), in
both cases capped at the order total; below the minimum it is 0. -/
theorem claimC2_calculateDiscount_spec (c : Coupon) (t : ℚ) :
    (c.minOrderAmount ≤ t →
      (c.discountType = DiscountType.percentage →
        calculateDiscount c t = pymin (t * c.discountValue / 100) t) ∧
      (c.discountType = DiscountType.fixed →
        calculateDiscount c t = pymin c.discountValue t) ∧
      calculateDiscount c t ≤ t) ∧
    (t < c.minOrderAmount → calculateDiscount c t = 0) := by
  constructor
  · intro hle
    have hnlt : ¬ t < c.minOrderAmount := not_lt.2 hle
    refine ⟨?_, ?_, ?_⟩
    · intro hdt
      simp [calculateDiscount, hnlt, hdt]
    · intro hdt
      simp [calculateDiscount, hnlt, hdt]
    · simp only [calculateDiscount, if_neg hnlt]
      cases c.discountType <;> exact pymin_le_right _ _
  · intro hlt
    simp [calculateDiscount, hlt]

theorem claimC2_calculateDiscount_spec_witness :
    exC2Coupon.minOrderAmount ≤ (100 : ℚ) ∧ calculateDiscount exC2Coupon 100 = 10 := by
  have h := ((claimC2_calculateDiscount_spec exC2Coupon 100).1 (by decide)).1 rfl
  refine ⟨by decide, ?_⟩
  rw [h]
  simp [exC2Coupon, pymin]
  decide

/-! ## C3 — `CouponService.validate_coupon` -/

theorem couponIsValid_false_iff (c : Coupon) (now : Int) (h : c.maxUses ≠ some 0) :
    couponIsValid c now = false ↔
      (c.isActive = false ∨ (∃ vf, c.validFrom = some vf ∧ now < vf) ∨
       (∃ vt, c.validTo = some vt ∧ vt < now) ∨
       (∃ m, c.maxUses = some m ∧ m ≤ c.currentUses)) := by
  obtain ⟨i, co, dt, dv, moa, mu, cu, mupu, act, vf, vt, au⟩ := c
  simp only [Option.some.injEq] at h
  cases act <;> cases vf <;> cases vt <;> cases mu <;>
    simp_all [couponIsValid] <;> omega

theorem canBeUsedByUser_false_iff (c : Coupon) (userId : Nat) (db : CouponDB)
    (h : c.maxUsesPerUser ≠ some 0) :
    canBeUsedByUser c userId db = false ↔
      ((c.assignedUsers ≠ [] ∧ userId ∉ c.assignedUsers) ∨
       (∃ m, c.maxUsesPerUser = some m ∧ m ≤ couponUsageCount db userId c.id)) := by
  obtain ⟨i, co, dt, dv, moa, mu, cu, mupu, act, vf, vt, au⟩ := c
  simp only [Option.some.injEq] at h
  cases mupu <;> simp_all [canBeUsedByUser] <;> tauto

/-- C3: `validate_coupon` returns invalid — `is_valid` false, no discount, no
coupon — exactly when the coupon is missing, inactive, outside its validity
window, globally exhausted, exhausted for this user, restricted to other
users, or the order total is below the minimum; otherwise it returns the valid
tuple with the computed discount and the coupon.  The hypotheses exclude
`max_uses = 0` / `max_uses_per_user = 0`, which the Pydantic schema rules out
(`ge=1` or NULL) and which Python truthiness would treat as `unlimited`. -/
theorem claimC3_validateCoupon_spec (db : CouponDB) (code : String) (userId : Nat)
    (t : ℚ) (now : Int)
    (hm : ∀ c ∈ db.coupons, c.maxUses ≠ some 0 ∧ c.maxUsesPerUser ≠ some 0) :
    (getByCode db code = none →
      validateCoupon db code userId t now = ⟨false, "Coupon not found", none, none⟩) ∧
    (∀ c, getByCode db code = some c →
      (((validateCoupon db code userId t now).isValid = false ∧
        (validateCoupon db code userId t now).discountAmount = none ∧
        (validateCoupon db code userId t now).coupon = none) ↔
        (c.isActive = false ∨
         (∃ vf, c.validFrom = some vf ∧ now < vf) ∨
         (∃ vt, c.validTo = some vt ∧ vt < now) ∨
         (∃ m, c.maxUses = some m ∧ m ≤ c.currentUses) ∨
         (c.assignedUsers ≠ [] ∧ userId ∉ c.assignedUsers) ∨
         (∃ m, c.maxUsesPerUser = some m ∧ m ≤ couponUsageCount db userId c.id) ∨
         t < c.minOrderAmount)) ∧
      (¬(c.isActive = false ∨
         (∃ vf, c.validFrom = some vf ∧ now < vf) ∨
         (∃ vt, c.validTo = some vt ∧ vt < now) ∨
         (∃ m, c.maxUses = some m ∧ m ≤ c.currentUses) ∨
         (c.assignedUsers ≠ [] ∧ userId ∉ c.assignedUsers) ∨
         (∃ m, c.maxUsesPerUser = some m ∧ m ≤ couponUsageCount db userId c.id) ∨
         t < c.minOrderAmount) →
        validateCoupon db code userId t now =
          ⟨true, "Coupon is valid", some (calculateDiscount c t), some c⟩)) := by
  constructor
  · intro hnone
    simp [validateCoupon, hnone]
  · intro c hc
    have hmem : c ∈ db.coupons := List.mem_of_find?_eq_some (by simpa [getByCode] using hc)
    obtain ⟨hmu, hmupu⟩ := hm c hmem
    by_cases h1 : couponIsValid c now = false
    · -- invalid by date/usage/active conditions
      have hdisj := (couponIsValid_false_iff c now hmu).1 h1
      have hbig : c.isActive = false ∨
          (∃ vf, c.validFrom = some vf ∧ now < vf) ∨
          (∃ vt, c.validTo = some vt ∧ vt < now) ∨
          (∃ m, c.maxUses = some m ∧ m ≤ c.currentUses) ∨
          (c.assignedUsers ≠ [] ∧ userId ∉ c.assignedUsers) ∨
          (∃ m, c.maxUsesPerUser = some m ∧ m ≤ couponUsageCount db userId c.id) ∨
          t < c.minOrderAmount := by
        rcases hdisj with h | h | h | h
        · exact Or.inl h
        · exact Or.inr (Or.inl h)
        · exact Or.inr (Or.inr (Or.inl h))
        · exact Or.inr (Or.inr (Or.inr (Or.inl h)))
      constructor
      · simp only [validateCoupon, hc, h1]
        simp only [Bool.not_false, if_true]
        exact ⟨fun _ => hbig, fun _ => by simp⟩
      · intro hnd
        exact absurd hbig hnd
    · have h1b : couponIsValid c now = true := by
        revert h1
        cases couponIsValid c now <;> simp
      have hnd1 := (not_iff_not.2 (couponIsValid_false_iff c now hmu)).1 (by simp [h1b])
      by_cases h2 : canBeUsedByUser c userId db = false
      · have hdisj := (canBeUsedByUser_false_iff c userId db hmupu).1 h2
        have hbig : c.isActive = false ∨
            (∃ vf, c.validFrom = some vf ∧ now < vf) ∨
            (∃ vt, c.validTo = some vt ∧ vt < now) ∨
            (∃ m, c.maxUses = some m ∧ m ≤ c.currentUses) ∨
            (c.assignedUsers ≠ [] ∧ userId ∉ c.assignedUsers) ∨
            (∃ m, c.maxUsesPerUser = some m ∧ m ≤ couponUsageCount db userId c.id) ∨
            t < c.minOrderAmount := by
          rcases hdisj with h | h
          · exact Or.inr (Or.inr (Or.inr (Or.inr (Or.inl h))))
          · exact Or.inr (Or.inr (Or.inr (Or.inr (Or.inr (Or.inl h)))))
        have hres : (validateCoupon db code userId t now).isValid = false ∧
            (validateCoupon db code userId t now).discountAmount = none ∧
            (validateCoupon db code userId t now).coupon = none := by
          rcases hdisj with ⟨hne, hni⟩ | ⟨m, hm2, hle⟩
          · simp [validateCoupon, hc, h1b, h2, hne, hni]
          · have hm0 : m ≠ 0 := fun h0 => hmupu (h0 ▸ hm2)
            by_cases hcond : ¬c.assignedUsers = [] ∧ userId ∉ c.assignedUsers
            · simp [validateCoupon, hc, h1b, h2, hcond]
            · simp [validateCoupon, hc, h1b, h2, hcond, hm2, hm0]
        constructor
        · exact ⟨fun _ => hbig, fun _ => hres⟩
        · intro hnd
          exact absurd hbig hnd
      · have h2b : canBeUsedByUser c userId db = true := by
          revert h2
          cases canBeUsedByUser c userId db <;> simp
        have hnd2 := (not_iff_not.2 (canBeUsedByUser_false_iff c userId db hmupu)).1
          (by simp [h2b])
        by_cases h3 : t < c.minOrderAmount
        · have hbig : c.isActive = false ∨
              (∃ vf, c.validFrom = some vf ∧ now < vf) ∨
              (∃ vt, c.validTo = some vt ∧ vt < now) ∨
              (∃ m, c.maxUses = some m ∧ m ≤ c.currentUses) ∨
              (c.assignedUsers ≠ [] ∧ userId ∉ c.assignedUsers) ∨
              (∃ m, c.maxUsesPerUser = some m ∧ m ≤ couponUsageCount db userId c.id) ∨
              t < c.minOrderAmount :=
            Or.inr (Or.inr (Or.inr (Or.inr (Or.inr (Or.inr h3)))))
          constructor
          · have hres2 : validateCoupon db code userId t now =
                ⟨false, "Order total must be at least the minimum to use this coupon",
                  none, none⟩ := by
              simp [validateCoupon, hc, h1b, h2b, validateCouponRest, h3]
            rw [hres2]
            exact ⟨fun _ => hbig, fun _ => by simp⟩
          · intro hnd
            exact absurd hbig hnd
        · have hval : validateCoupon db code userId t now =
              ⟨true, "Coupon is valid", some (calculateDiscount c t), some c⟩ := by
            simp [validateCoupon, hc, h1b, h2b, validateCouponRest, h3]
          constructor
          · rw [hval]
            simp only []
            constructor
            · intro hfalse
              exact absurd hfalse.1 (by simp)
            · intro hdisj
              exfalso
              rcases hdisj with h | h | h | h | h | h | h
              · exact hnd1 (Or.inl h)
              · exact hnd1 (Or.inr (Or.inl h))
              · exact hnd1 (Or.inr (Or.inr (Or.inl h)))
              · exact hnd1 (Or.inr (Or.inr (Or.inr h)))
              · exact hnd2 (Or.inl h)
              · exact hnd2 (Or.inr h)
              · exact h3 h
          · intro _
            exact hval

theorem claimC3_validateCoupon_spec_witness :
    validateCoupon exC3Db "save10" 7 100 500 =
      ⟨true, "Coupon is valid", some (calculateDiscount exC3Coupon 100), some exC3Coupon⟩ := by
  have h := ((claimC3_validateCoupon_spec exC3Db "save10" 7 100 500 (by decide)).2
    exC3Coupon (by decide)).2
  apply h
  simp [exC3Coupon, couponUsageCount, exC3Db]
  decide

/-! ## C4 — `ProductService.import_products_from_csv` bookkeeping -/

theorem specCounts_add {Row σ π : Type} (process : σ → Row → Except String (σ × π))
    (rows : List Row) (st : σ) (rowNum : Nat) :
    specOkCount process rows st + (specRowErrors process rows st rowNum).length =
      rows.length := by
  induction rows generalizing st rowNum with
  | nil => rfl
  | cons row rest ih =>
    cases hp : process st row with
    | ok val =>
      simp only [specOkCount, specRowErrors, hp]
      have := ih val.1 (rowNum + 1)
      simp only [List.length_cons]
      omega
    | error e =>
      simp only [specOkCount, specRowErrors, hp]
      have := ih st (rowNum + 1)
      simp only [List.length_cons]
      omega

theorem csvImportLoop_spec {Row σ π : Type} (process : σ → Row → Except String (σ × π))
    (batchSize : Nat) (rows : List Row) (st : σ) (rowNum : Nat)
    (batch committed : List π) (successful : Nat) (errors : List CSVImportError)
    (total : Nat) (hsucc : successful = committed.length) :
    (csvImportLoop process batchSize rows st rowNum batch committed successful errors
        total).2.1.length =
      committed.length + batch.length + specOkCount process rows st ∧
    (csvImportLoop process batchSize rows st rowNum batch committed successful errors
        total).2.2.1 =
      (csvImportLoop process batchSize rows st rowNum batch committed successful errors
        total).2.1.length ∧
    (csvImportLoop process batchSize rows st rowNum batch committed successful errors
        total).2.2.2.1 = errors ++ specRowErrors process rows st rowNum ∧
    (csvImportLoop process batchSize rows st rowNum batch committed successful errors
        total).2.2.2.2 = total + rows.length := by
  induction rows generalizing st rowNum batch committed successful errors total with
  | nil =>
    simp [csvImportLoop, specOkCount, specRowErrors, hsucc]
  | cons row rest ih =>
    cases hp : process st row with
    | ok val =>
      obtain ⟨st2, prod⟩ := val
      simp only [csvImportLoop, hp]
      by_cases hb : batchSize ≤ (batch ++ [prod]).length
      · simp only [if_pos hb]
        have := ih st2 (rowNum + 1) [] (committed ++ (batch ++ [prod]))
          (successful + (batch ++ [prod]).length) errors (total + 1)
          (by simp [hsucc])
        simp only [specOkCount, specRowErrors, hp] at *
        refine ⟨?_, this.2.1, this.2.2.1, ?_⟩
        · rw [this.1]
          simp only [List.length_append, List.length_nil, List.length_cons]
          omega
        · rw [this.2.2.2]
          simp only [List.length_cons]
          omega
      · simp only [if_neg hb]
        have := ih st2 (rowNum + 1) (batch ++ [prod]) committed successful errors
          (total + 1) hsucc
        simp only [specOkCount, specRowErrors, hp] at *
        refine ⟨?_, this.2.1, this.2.2.1, ?_⟩
        · rw [this.1]
          simp only [List.length_append, List.length_cons, List.length_nil]
          omega
        · rw [this.2.2.2]
          simp only [List.length_cons]
          omega
    | error e =>
      simp only [csvImportLoop, hp]
      have := ih st (rowNum + 1) batch committed successful
        (errors ++ [⟨rowNum, e⟩]) (total + 1) hsucc
      simp only [specOkCount, specRowErrors, hp] at *
      refine ⟨this.1, this.2.1, ?_, ?_⟩
      · rw [this.2.2.1]
        simp
      · rw [this.2.2.2]
        simp only [List.length_cons]
        omega

/-- C4: for every per-row processing function, batch size, initial state and
row list, the import result satisfies the claimed bookkeeping: `total_rows` is
the number of data rows and equals `successful + failed`; `failed` is the
number of recorded errors; `successful` is the number of committed products;
and the error list records exactly the failing rows, in order, with CSV row
numbers starting at 2 and the raised message. -/
theorem claimC4_importProductsFromCsv_spec {Row σ π : Type}
    (process : σ → Row → Except String (σ × π)) (batchSize : Nat)
    (rows : List Row) (st : σ) :
    (importProductsFromCsv process batchSize rows st).1.totalRows = rows.length ∧
    (importProductsFromCsv process batchSize rows st).1.totalRows =
      (importProductsFromCsv process batchSize rows st).1.successful +
        (importProductsFromCsv process batchSize rows st).1.failed ∧
    (importProductsFromCsv process batchSize rows st).1.failed =
      (importProductsFromCsv process batchSize rows st).1.errors.length ∧
    (importProductsFromCsv process batchSize rows st).1.successful =
      (importProductsFromCsv process batchSize rows st).2.length ∧
    (importProductsFromCsv process batchSize rows st).1.errors =
      specRowErrors process rows st 2 := by
  have h := csvImportLoop_spec process batchSize rows st 2 [] [] 0 [] 0 rfl
  have hcnt := specCounts_add process rows st 2
  simp only [importProductsFromCsv]
  refine ⟨?_, ?_, trivial, ?_, ?_⟩
  · simpa using h.2.2.2
  · rw [h.2.2.2, h.2.1, h.1]
    have herr : (csvImportLoop process batchSize rows st 2 [] [] 0 [] 0).2.2.2.1 =
        specRowErrors process rows st 2 := by simpa using h.2.2.1
    rw [herr]
    simp only [List.length_nil, Nat.zero_add]
    omega
  · rw [h.2.1]
  · simpa using h.2.2.1

/-! ## C5/C6 — `OrderService.create_order` -/

theorem requestedQuantity_cons (it : OrderItemCreate) (rest : List OrderItemCreate)
    (pid : Nat) :
    requestedQuantity (it :: rest) pid =
      (if it.productId == pid then it.quantity else 0) + requestedQuantity rest pid := by
  by_cases h : (it.productId == pid) = true <;>
    simp [requestedQuantity, List.filter_cons, h]

theorem requestedQuantity_not_mem (items : List OrderItemCreate) (pid : Nat)
    (h : pid ∉ items.map (fun it => it.productId)) :
    requestedQuantity items pid = 0 := by
  have hnil : items.filter (fun it => it.productId == pid) = [] := by
    rw [List.filter_eq_nil_iff]
    intro it hmem hbeq
    have heq : it.productId = pid := by simpa using hbeq
    exact h (heq ▸ List.mem_map_of_mem (fun it => it.productId) hmem)
  simp [requestedQuantity, hnil]

theorem requestedQuantity_nodup (items : List OrderItemCreate)
    (hnd : (items.map (fun it => it.productId)).Nodup) (it : OrderItemCreate)
    (hmem : it ∈ items) : requestedQuantity items it.productId = it.quantity := by
  induction items with
  | nil => cases hmem
  | cons hd rest ih =>
    rw [List.map_cons, List.nodup_cons] at hnd
    rcases List.mem_cons.1 hmem with rfl | hmem2
    · rw [requestedQuantity_cons]
      simp [requestedQuantity_not_mem rest it.productId hnd.1]
    · have hne : (hd.productId == it.productId) = false := by
        have : hd.productId ≠ it.productId := by
          intro he
          exact hnd.1 (he ▸ List.mem_map_of_mem (fun it => it.productId) hmem2)
        simpa using this
      rw [requestedQuantity_cons, hne]
      simp [ih hnd.2 hmem2]

theorem updateStockForItems_eq (items : List OrderItemCreate) (products : List Product) :
    updateStockForItems products items =
      products.map
        (fun p => { p with stock := p.stock - (requestedQuantity items p.id : Int) }) := by
  induction items generalizing products with
  | nil => simp [updateStockForItems, requestedQuantity]
  | cons it rest ih =>
    simp only [updateStockForItems, List.foldl_cons] at *
    rw [ih]
    rw [List.map_map]
    apply List.map_congr_left
    intro p hp
    by_cases h : p.id = it.productId
    · have hb : (p.id == it.productId) = true := by simpa using h
      have hb2 : (it.productId == p.id) = true := by simpa using h.symm
      simp only [Function.comp_apply, hb, if_true, requestedQuantity_cons, hb2]
      congr 1
      push_cast
      ring
    · have hb : (p.id == it.productId) = false := by simpa using h
      have hb2 : (it.productId == p.id) = false := by simpa using (Ne.symm h)
      simp [Function.comp_apply, hb, requestedQuantity_cons, hb2, h]

theorem findProduct_after_update (db : OrderDB) (items : List OrderItemCreate) (pid : Nat) :
    findProduct { db with products := updateStockForItems db.products items } pid =
      (findProduct db pid).map
        (fun p => { p with stock := p.stock - (requestedQuantity items p.id : Int) }) := by
  show (updateStockForItems db.products items).find? (fun p => p.id == pid) = _
  rw [updateStockForItems_eq, List.find?_map]
  rfl

theorem processOrderItems_insufficient (db : OrderDB) (items : List OrderItemCreate)
    (total : ℚ) (recs : List OrderItemRecord)
    (hex : ∀ it ∈ items, ∃ p, findProduct db it.productId = some p ∧ p.maxPerBuy ≠ none)
    (hins : ∃ it ∈ items, ∃ p, findProduct db it.productId = some p ∧
      p.isAlwaysInStock = false ∧ p.stock < (it.quantity : Int)) :
    processOrderItems db items total recs = Except.error 400 := by
  induction items generalizing total recs with
  | nil =>
    obtain ⟨it, hmem, _⟩ := hins
    cases hmem
  | cons it rest ih =>
    obtain ⟨p, hp, hmpb⟩ := hex it (List.mem_cons_self _ _)
    simp only [processOrderItems, hp]
    by_cases hcond : (!p.isAlwaysInStock && decide (p.stock < (it.quantity : Int))) = true
    · simp [hcond]
    · have hcondf : (!p.isAlwaysInStock && decide (p.stock < (it.quantity : Int))) = false := by
        revert hcond
        cases !p.isAlwaysInStock && decide (p.stock < (it.quantity : Int)) <;> simp
      obtain ⟨m, hm⟩ : ∃ m, p.maxPerBuy = some m := by
        cases hmb : p.maxPerBuy with
        | none => exact absurd hmb hmpb
        | some m => exact ⟨m, rfl⟩
      simp only [hcondf, Bool.false_eq_true, if_false, hm]
      by_cases hq : (decide (m < it.quantity)) = true
      · simp [hq]
      · have hqf : (decide (m < it.quantity)) = false := by
          revert hq
          cases decide (m < it.quantity) <;> simp
        simp only [hqf, Bool.false_eq_true, if_false]
        apply ih
        · intro it2 h2
          exact hex it2 (List.mem_cons_of_mem _ h2)
        · obtain ⟨it2, hmem2, p2, hp2, hais, hstock⟩ := hins
          rcases List.mem_cons.1 hmem2 with rfl | hmem2
          · rw [hp] at hp2
            injection hp2 with he
            subst he
            have htrue : (!p.isAlwaysInStock && decide (p.stock < (it2.quantity : Int))) = true := by
              simp [hais, hstock]
            rw [htrue] at hcondf
            cases hcondf
          · exact ⟨it2, hmem2, p2, hp2, hais, hstock⟩

theorem processOrderItems_ok (db : OrderDB) (items : List OrderItemCreate)
    (total : ℚ) (recs : List OrderItemRecord) (t2 : ℚ) (r2 : List OrderItemRecord)
    (h : processOrderItems db items total recs = Except.ok (t2, r2)) :
    ∃ newRecs, r2 = recs ++ newRecs ∧
      t2 = total + (newRecs.map (fun r => r.price * (r.quantity : ℚ))).sum ∧
      newRecs.map (fun r => (r.productId, r.quantity)) =
        items.map (fun it => (it.productId, it.quantity)) ∧
      ∀ rec ∈ newRecs, ∃ p, findProduct db rec.productId = some p ∧
        rec.price = basePricingCalculatePrice p ∧ rec.productId = p.id := by
  induction items generalizing total recs with
  | nil =>
    simp only [processOrderItems, Except.ok.injEq, Prod.mk.injEq] at h
    refine ⟨[], by simp [h.2], by simp [h.1], by simp, by simp⟩
  | cons it rest ih =>
    cases hp : findProduct db it.productId with
    | none =>
      simp [processOrderItems, hp] at h
    | some p =>
      simp only [processOrderItems, hp] at h
      by_cases hcond : (!p.isAlwaysInStock && decide (p.stock < (it.quantity : Int))) = true
      · rw [if_pos hcond] at h
        simp at h
      · rw [if_neg hcond] at h
        cases hmb : p.maxPerBuy with
        | none =>
          rw [hmb] at h
          simp at h
        | some m =>
          simp only [hmb] at h
          by_cases hq : (decide (m < it.quantity)) = true
          · rw [if_pos hq] at h
            simp at h
          · rw [if_neg hq] at h
            obtain ⟨newRecs, hr, ht, hmap, hbase⟩ := ih _ _ h
            have hpid : p.id = it.productId := by
              have hfind := List.find?_eq_some.1 (show db.products.find?
                (fun q => q.id == it.productId) = some p from hp)
              simpa using hfind.1
            refine ⟨⟨p.id, it.quantity, p.price⟩ :: newRecs, ?_, ?_, ?_, ?_⟩
            · rw [hr]
              simp
            · rw [ht]
              simp only [List.map_cons, List.sum_cons]
              ring
            · simp only [List.map_cons, hmap, hpid]
            · intro rec hrec
              rcases List.mem_cons.1 hrec with rfl | hrec2
              · exact ⟨p, by simpa [hpid] using hp, rfl, rfl⟩
              · exact hbase rec hrec2

theorem createOrder_ok_phase (db : OrderDB) (userId : Nat) (orderIn : OrderCreate)
    (order : Order) (db2 : OrderDB)
    (h : createOrder db userId orderIn = Except.ok (order, db2)) :
    createOrderItemsPhase db userId orderIn = Except.ok (order, db2) := by
  unfold createOrder at h
  cases ha : orderIn.addressId with
  | none =>
    cases hs : orderIn.physicalStoreId with
    | none =>
      simp [ha, hs] at h
    | some s =>
      simp only [ha, hs] at h
      cases hf : db.physicalStores.find? (fun ps => ps.id == s && ps.isActive) with
      | none =>
        simp [hf] at h
      | some _ =>
        simp only [hf] at h
        exact h
  | some a =>
    cases hs : orderIn.physicalStoreId with
    | some s =>
      simp [ha, hs] at h
    | none =>
      simp only [ha, hs] at h
      cases hf : db.addresses.find? (fun ad => ad.id == a && ad.userId == userId) with
      | none =>
        simp [hf] at h
      | some _ =>
        simp only [hf] at h
        exact h

theorem createOrderItemsPhase_ok (db : OrderDB) (userId : Nat) (orderIn : OrderCreate)
    (order : Order) (db2 : OrderDB)
    (h : createOrderItemsPhase db userId orderIn = Except.ok (order, db2)) :
    ∃ t recs, processOrderItems db orderIn.items 0 [] = Except.ok (t, recs) ∧
      order = ⟨userId, orderIn.addressId, orderIn.physicalStoreId, t, recs⟩ ∧
      db2 = { db with products := updateStockForItems db.products orderIn.items } := by
  unfold createOrderItemsPhase at h
  cases hp : processOrderItems db orderIn.items 0 [] with
  | error e =>
    rw [hp] at h
    simp at h
  | ok v =>
    rw [hp] at h
    simp only [Except.ok.injEq, Prod.mk.injEq] at h
    exact ⟨v.1, v.2, by rw [← Prod.mk.eta (p := v)], h.1.symm, h.2.symm⟩

theorem processOrderItems_pricing (db : OrderDB) (pricing2 : PricingDB)
    (items : List OrderItemCreate) (total : ℚ) (recs : List OrderItemRecord) :
    processOrderItems { db with pricing := pricing2 } items total recs =
      processOrderItems db items total recs := by
  induction items generalizing total recs with
  | nil => rfl
  | cons it rest ih =>
    have hfp : findProduct { db with pricing := pricing2 } it.productId =
        findProduct db it.productId := rfl
    simp only [processOrderItems, hfp]
    cases findProduct db it.productId with
    | none => rfl
    | some p =>
      by_cases hcond : (!p.isAlwaysInStock && decide (p.stock < (it.quantity : Int))) = true
      · simp [hcond]
      · simp only [hcond, Bool.false_eq_true, if_false]
        cases p.maxPerBuy with
        | none => rfl
        | some m =>
          by_cases hq : (decide (m < it.quantity)) = true
          · simp [hq]
          · simp [hq, ih]

theorem createOrder_pricing_irrelevant (db : OrderDB) (userId : Nat)
    (orderIn : OrderCreate) (pricing2 : PricingDB) :
    createOrder { db with pricing := pricing2 } userId orderIn =
      (createOrder db userId orderIn).map
        (fun res => (res.1, { res.2 with pricing := pricing2 })) := by
  unfold createOrder
  cases ha : orderIn.addressId with
  | none =>
    cases hs : orderIn.physicalStoreId with
    | none => rfl
    | some s =>
      simp only []
      cases hf : db.physicalStores.find? (fun ps => ps.id == s && ps.isActive) with
      | none => simp [hf, Except.map]
      | some st =>
        simp only [show ({ db with pricing := pricing2 } : OrderDB).physicalStores =
          db.physicalStores from rfl, hf]
        unfold createOrderItemsPhase
        rw [processOrderItems_pricing]
        cases processOrderItems db orderIn.items 0 [] with
        | error e => rfl
        | ok v => rfl
  | some a =>
    cases hs : orderIn.physicalStoreId with
    | some s => rfl
    | none =>
      simp only []
      cases hf : db.addresses.find? (fun ad => ad.id == a && ad.userId == userId) with
      | none => simp [hf, Except.map]
      | some ad =>
        simp only [show ({ db with pricing := pricing2 } : OrderDB).addresses =
          db.addresses from rfl, hf]
        unfold createOrderItemsPhase
        rw [processOrderItems_pricing]
        cases processOrderItems db orderIn.items 0 [] with
        | error e => rfl
        | ok v => rfl

/-- C5 counterexample.  The order requests a missing product (id 2) before the
product with insufficient stock (id 1, stock 0, not always in stock, quantity
5), so `create_order` raises HTTP 404, not the HTTP 400 the claim asserts. -/
theorem claimC5_counterexample :
    ((⟨1, 5⟩ : OrderItemCreate) ∈ exC5Order.items ∧
      findProduct exC5Db 1 = some exC5Product ∧
      exC5Product.isAlwaysInStock = false ∧
      exC5Product.stock < ((5 : Nat) : Int)) ∧
    createOrder exC5Db 7 exC5Order = Except.error 404 ∧
    (404 : Nat) ≠ 400 := by
  refine ⟨⟨by decide, by decide, by decide, by decide⟩, by rfl, by decide⟩

/-- C5 amended: provided the order names a valid delivery target (an address
of the user, or an active store), every requested product exists, and every
requested product has `max_per_buy` set (a NULL `max_per_buy` makes the Python
comparison raise, HTTP 500; a missing product raises HTTP 404): if some
requested product has `is_always_in_stock` false and stock below the requested
quantity, `create_order` returns HTTP 400 and creates no order; and whenever
it succeeds, each ordered product's stock is decreased by exactly the ordered
quantity (product ids assumed distinct across items; duplicates accumulate). -/
theorem claimC5_createOrder_amended_spec (db : OrderDB) (userId : Nat)
    (orderIn : OrderCreate) :
    (((∃ a, orderIn.addressId = some a ∧ orderIn.physicalStoreId = none ∧
        (db.addresses.find? (fun ad => ad.id == a && ad.userId == userId)).isSome) ∨
      (∃ s, orderIn.addressId = none ∧ orderIn.physicalStoreId = some s ∧
        (db.physicalStores.find? (fun ps => ps.id == s && ps.isActive)).isSome)) →
      (∀ it ∈ orderIn.items, ∃ p, findProduct db it.productId = some p ∧
        p.maxPerBuy ≠ none) →
      (∃ it ∈ orderIn.items, ∃ p, findProduct db it.productId = some p ∧
        p.isAlwaysInStock = false ∧ p.stock < (it.quantity : Int)) →
      createOrder db userId orderIn = Except.error 400) ∧
    (∀ order db2, createOrder db userId orderIn = Except.ok (order, db2) →
      (orderIn.items.map (fun it => it.productId)).Nodup →
      ∀ it ∈ orderIn.items, ∀ p, findProduct db it.productId = some p →
        ∃ p2, findProduct db2 it.productId = some p2 ∧
          p2.stock = p.stock - (it.quantity : Int)) := by
  constructor
  · intro htarget hex hins
    have hphase : createOrderItemsPhase db userId orderIn = Except.error 400 := by
      unfold createOrderItemsPhase
      rw [processOrderItems_insufficient db orderIn.items 0 [] hex hins]
    rcases htarget with ⟨a, ha, hs, hfind⟩ | ⟨s, ha, hs, hfind⟩
    · obtain ⟨ad, hfa⟩ := Option.isSome_iff_exists.1 hfind
      unfold createOrder
      simp only [ha, hs, hfa]
      exact hphase
    · obtain ⟨st, hfs⟩ := Option.isSome_iff_exists.1 hfind
      unfold createOrder
      simp only [ha, hs, hfs]
      exact hphase
  · intro order db2 h hnd it hmem p hp
    obtain ⟨t, recs, hpo, hor, hdb2⟩ :=
      createOrderItemsPhase_ok db userId orderIn order db2 (createOrder_ok_phase _ _ _ _ _ h)
    have hpid : p.id = it.productId := by
      have hfind := List.find?_eq_some.1 (show db.products.find?
        (fun q => q.id == it.productId) = some p from hp)
      simpa using hfind.1
    refine ⟨{ p with stock := p.stock - (requestedQuantity orderIn.items p.id : Int) }, ?_, ?_⟩
    · rw [hdb2, findProduct_after_update, hp]
      rfl
    · have hreq : requestedQuantity orderIn.items p.id = it.quantity := by
        rw [hpid]
        exact requestedQuantity_nodup orderIn.items hnd it hmem
      simp [hreq]

theorem claimC5_createOrder_amended_spec_witness :
    createOrder exC5Db 7 exC5Order2 = Except.error 400 := by
  apply (claimC5_createOrder_amended_spec exC5Db 7 exC5Order2).1
  · exact Or.inl ⟨1, rfl, rfl, by decide⟩
  · intro it hmem
    have : it = ⟨1, 5⟩ := by
      rcases List.mem_cons.1 hmem with h | h
      · exact h
      · cases h
    subst this
    exact ⟨exC5Product, by decide, by decide⟩
  · exact ⟨⟨1, 5⟩, by decide, exC5Product, by decide, by decide, by decide⟩

/-- C6: every successfully created order totals the sum over its items of the
product's base price times quantity, records the base price
(`BasePricingStrategy`'s price) on every item, mirrors the requested items,
and is computed without reading the price-list tables at all — so role price
lists and offer prices (and hence any different `PriceCalculator` result)
never affect the total or the recorded per-item prices. -/
theorem claimC6_createOrder_basePrice_spec (db : OrderDB) (userId : Nat)
    (orderIn : OrderCreate) (order : Order) (db2 : OrderDB)
    (h : createOrder db userId orderIn = Except.ok (order, db2)) :
    order.totalAmount = (order.items.map (fun r => r.price * (r.quantity : ℚ))).sum ∧
    (∀ rec ∈ order.items, ∃ p, findProduct db rec.productId = some p ∧
      rec.price = basePricingCalculatePrice p) ∧
    order.items.map (fun r => (r.productId, r.quantity)) =
      orderIn.items.map (fun it => (it.productId, it.quantity)) ∧
    (∀ pricing2 : PricingDB,
      createOrder { db with pricing := pricing2 } userId orderIn =
        (createOrder db userId orderIn).map
          (fun res => (res.1, { res.2 with pricing := pricing2 }))) := by
  obtain ⟨t, recs, hpo, hor, hdb2⟩ :=
    createOrderItemsPhase_ok db userId orderIn order db2 (createOrder_ok_phase _ _ _ _ _ h)
  obtain ⟨newRecs, hr, ht, hmap, hbase⟩ := processOrderItems_ok db orderIn.items 0 [] t recs hpo
  have hrecs : recs = newRecs := by simpa using hr
  subst hrecs
  refine ⟨?_, ?_, ?_, ?_⟩
  · rw [hor]
    simpa using ht
  · intro rec hrec
    have hrec2 : rec ∈ recs := by
      rw [hor] at hrec
      exact hrec
    obtain ⟨p, hp, hprice, _⟩ := hbase rec hrec2
    exact ⟨p, hp, hprice⟩
  · rw [hor]
    exact hmap
  · intro pricing2
    exact createOrder_pricing_irrelevant db userId orderIn pricing2

theorem claimC6_createOrder_basePrice_spec_witness :
    createOrder exC6Db 7 exC6Order = Except.ok (exC6ResultOrder, exC6ResultDb) ∧
    exC6ResultOrder.totalAmount =
      (exC6ResultOrder.items.map (fun r => r.price * (r.quantity : ℚ))).sum := by
  have hsucc : createOrder exC6Db 7 exC6Order = Except.ok (exC6ResultOrder, exC6ResultDb) := by
    simp [createOrder, createOrderItemsPhase, processOrderItems, findProduct,
      updateStockForItems, exC6Db, exC6Order, exC6Product, exC6ResultOrder, exC6ResultDb]
  exact ⟨hsucc,
    (claimC6_createOrder_basePrice_spec exC6Db 7 exC6Order exC6ResultOrder exC6ResultDb hsucc).1⟩

/-! ## C7 — `LoginAttemptTracker` -/

/-- C7: `record_failed_attempt` sets the lock (timestamped `now`) exactly when
the failed attempts within the last hour, including the new one, reach
`MAX_LOGIN_ATTEMPTS`, and leaves the lock untouched otherwise; `is_locked` is
true exactly while a lock exists whose age is at most
`ACCOUNT_LOCKOUT_DURATION`, clears both dictionaries once the duration has
passed, and `record_successful_login` clears both so `is_locked` is false. -/
theorem claimC7_loginTracker_spec (s : LoginTracker) (identifier : String) (now : Int) :
    ((MAX_LOGIN_ATTEMPTS ≤
        ((s.failedAttempts identifier).filter (fun t => now - t < 3600)).length + 1 →
      (recordFailedAttempt s identifier now).lockedAccounts identifier = some now) ∧
     (((s.failedAttempts identifier).filter (fun t => now - t < 3600)).length + 1 <
        MAX_LOGIN_ATTEMPTS →
      (recordFailedAttempt s identifier now).lockedAccounts identifier =
        s.lockedAccounts identifier)) ∧
    ((recordFailedAttempt s identifier now).failedAttempts identifier =
      (s.failedAttempts identifier).filter (fun t => now - t < 3600) ++ [now]) ∧
    ((isLocked s identifier now).1 = true ↔
      ∃ lockedTime, s.lockedAccounts identifier = some lockedTime ∧
        now - lockedTime ≤ ACCOUNT_LOCKOUT_DURATION) ∧
    (∀ lockedTime, s.lockedAccounts identifier = some lockedTime →
      ACCOUNT_LOCKOUT_DURATION < now - lockedTime →
      (isLocked s identifier now).2.failedAttempts identifier = [] ∧
      (isLocked s identifier now).2.lockedAccounts identifier = none) ∧
    ((recordSuccessfulLogin s identifier).failedAttempts identifier = [] ∧
     (recordSuccessfulLogin s identifier).lockedAccounts identifier = none ∧
     (isLocked (recordSuccessfulLogin s identifier) identifier now).1 = false) := by
  refine ⟨⟨?_, ?_⟩, ?_, ?_, ?_, ?_, ?_, ?_⟩
  · intro h
    simp only [recordFailedAttempt]
    rw [if_pos (by simpa using h)]
    simp
  · intro h
    simp only [recordFailedAttempt]
    rw [if_neg (by simp; omega)]
  · simp only [recordFailedAttempt]
    by_cases h : MAX_LOGIN_ATTEMPTS ≤
        ((s.failedAttempts identifier).filter (fun t => now - t < 3600) ++ [now]).length
    · rw [if_pos h]
      simp
    · rw [if_neg h]
      simp
  · cases hl : s.lockedAccounts identifier with
    | none => simp [isLocked, hl]
    | some lockedTime =>
      simp only [isLocked, hl]
      by_cases hd : ACCOUNT_LOCKOUT_DURATION < now - lockedTime
      · rw [if_pos hd]
        constructor
        · intro hfalse
          exact absurd hfalse (by simp)
        · rintro ⟨lt2, hlt, hle⟩
          injection hlt with he
          subst he
          exact absurd hle (by omega)
      · rw [if_neg hd]
        exact ⟨fun _ => ⟨lockedTime, rfl, by omega⟩, fun _ => rfl⟩
  · intro lockedTime hl hd
    simp only [isLocked, hl]
    rw [if_pos hd]
    simp
  · simp [recordSuccessfulLogin]
  · simp [recordSuccessfulLogin]
  · simp [recordSuccessfulLogin, isLocked]

theorem claimC7_loginTracker_spec_witness :
    (recordFailedAttempt exC7Tracker "user" 50).lockedAccounts "user" = some 50 :=
  ((claimC7_loginTracker_spec exC7Tracker "user" 50).1).1 (by decide)

/-! ## C8 — `SecurityMiddleware._check_rate_limit` sliding windows -/

theorem filter_window_collapse (l : List Int) (τ now w : Int) (h : τ ≤ now) :
    (l.filter (fun t => τ - t < w)).filter (fun t => now - t < w) =
      l.filter (fun t => now - t < w) := by
  rw [List.filter_filter]
  apply List.filter_congr
  intro t ht
  by_cases h1 : now - t < w
  · have h2 : τ - t < w := by omega
    simp [h1, h2]
  · simp [h1]

theorem filter_window_append (l : List Int) (now w : Int) (hw : 0 < w) :
    l.filter (fun t => now - t < w) ++ [now] =
      (l ++ [now]).filter (fun t => now - t < w) := by
  rw [List.filter_append]
  have hnow : now - now < w := by omega
  simp [List.filter_cons, decide_eq_true hnow, hw]

theorem acceptedTimes_cons (r : TracedRequest) (l : List TracedRequest) :
    acceptedTimes (r :: l) = (if r.accepted then [r.time] else []) ++ acceptedTimes l := by
  cases h : r.accepted <;> simp [acceptedTimes, List.filter_cons, h]

theorem loginPassedTimes_cons (r : TracedRequest) (l : List TracedRequest) :
    loginPassedTimes (r :: l) =
      (if r.loginPassed then [r.time] else []) ++ loginPassedTimes l := by
  cases h : r.loginPassed <;> simp [loginPassedTimes, List.filter_cons, h]

theorem countWindow_append (w now : Int) (l1 l2 : List Int) :
    countWindow w now (l1 ++ l2) = countWindow w now l1 + countWindow w now l2 := by
  simp [countWindow, List.filter_append]

theorem sublist_filter_mono {α : Type} (l : List α) (p q : α → Bool)
    (h : ∀ a ∈ l, p a = true → q a = true) :
    List.Sublist (l.filter p) (l.filter q) := by
  induction l with
  | nil => simp
  | cons a rest ih =>
    have ih2 := ih (fun x hx => h x (List.mem_cons_of_mem _ hx))
    by_cases hp : p a = true
    · rw [List.filter_cons_of_pos hp,
        List.filter_cons_of_pos (h a (List.mem_cons_self _ _) hp)]
      exact ih2.cons₂ a
    · rw [List.filter_cons_of_neg (by simpa using hp)]
      by_cases hq : q a = true
      · rw [List.filter_cons_of_pos hq]
        exact ih2.cons a
      · rw [List.filter_cons_of_neg (by simpa using hq)]
        exact ih2

theorem countWindow_le_of_sublist (w now : Int) {l1 l2 : List Int}
    (h : List.Sublist l1 l2) : countWindow w now l1 ≤ countWindow w now l2 :=
  (h.filter _).length_le

/-- The trace runner performs exactly the middleware's (enabled)
`_check_rate_limit` at each step. -/
theorem runRateTrace_cons_eq (e : RateLimitEntry) (now : Int) (lg : Bool)
    (rest : List (Int × Bool)) :
    runRateTrace e ((now, lg) :: rest) =
      ((⟨now, lg,
          lg && (rateLimitLoginStage { e with
            minuteRequests := e.minuteRequests.filter (fun t => now - t < 60),
            hourRequests := e.hourRequests.filter (fun t => now - t < 3600) } now lg).1,
          (checkRateLimit e now lg true).1⟩ : TracedRequest) ::
        (runRateTrace (checkRateLimit e now lg true).2 rest).1,
       (runRateTrace (checkRateLimit e now lg true).2 rest).2) := rfl

theorem runRateTrace_accepted_login (e : RateLimitEntry) (reqs : List (Int × Bool)) :
    ∀ r ∈ (runRateTrace e reqs).1, r.accepted = true → r.isLogin = true →
      r.loginPassed = true := by
  induction reqs generalizing e with
  | nil =>
    intro r hr
    simp [runRateTrace] at hr
  | cons q rest ih =>
    obtain ⟨now, lg⟩ := q
    rw [runRateTrace_cons_eq]
    intro r hr hacc hlg
    rcases List.mem_cons.1 hr with rfl | hr2
    · simp only at hlg hacc ⊢
      subst hlg
      simp only [Bool.true_and]
      unfold checkRateLimit at hacc
      simp only [Bool.not_true, Bool.false_eq_true, if_false] at hacc
      cases hst : (rateLimitLoginStage { e with
          minuteRequests := e.minuteRequests.filter (fun t => now - t < 60),
          hourRequests := e.hourRequests.filter (fun t => now - t < 3600) } now true) with
      | mk b1 es =>
        rw [hst] at hacc
        cases b1 with
        | false => simp at hacc
        | true => rfl
    · exact ih (checkRateLimit e now lg true).2 r hr2 hacc hlg

theorem rateStep_spec (e : RateLimitEntry) (now : Int) (lg : Bool)
    (τ τL : Int) (acc lp : List Int) (inv : RLInv τ τL acc lp e) (hτ : τ ≤ now) :
    ((checkRateLimit e now lg true).1 = true →
      countWindow 60 now acc < RATE_LIMIT_PER_MINUTE ∧
      countWindow 3600 now acc < RATE_LIMIT_PER_HOUR) ∧
    ((checkRateLimit e now lg true).1 = true → lg = true →
      countWindow 60 now lp < RATE_LIMIT_LOGIN_PER_MINUTE ∧
      countWindow 3600 now lp < RATE_LIMIT_LOGIN_PER_HOUR) ∧
    RLInv now (if lg then now else τL)
      (acc ++ if (checkRateLimit e now lg true).1 then [now] else [])
      (lp ++ if lg && (rateLimitLoginStage { e with
          minuteRequests := e.minuteRequests.filter (fun t => now - t < 60),
          hourRequests := e.hourRequests.filter (fun t => now - t < 3600) } now lg).1
        then [now] else [])
      (checkRateLimit e now lg true).2 := by
  have hτL2 : τL ≤ now := le_trans inv.hτL hτ
  have hm1 : e.minuteRequests.filter (fun t => now - t < 60) =
      acc.filter (fun t => now - t < 60) := by
    rw [inv.minute, filter_window_collapse _ _ _ _ hτ]
  have hh1 : e.hourRequests.filter (fun t => now - t < 3600) =
      acc.filter (fun t => now - t < 3600) := by
    rw [inv.hour, filter_window_collapse _ _ _ _ hτ]
  have hlm1 : e.loginMinuteRequests.filter (fun t => now - t < 60) =
      lp.filter (fun t => now - t < 60) := by
    rw [inv.lmin, filter_window_collapse _ _ _ _ hτL2]
  have hlh1 : e.loginHourRequests.filter (fun t => now - t < 3600) =
      lp.filter (fun t => now - t < 3600) := by
    rw [inv.lhour, filter_window_collapse _ _ _ _ hτL2]
  unfold checkRateLimit rateLimitLoginStage rateLimitGeneralStage
  cases lg with
  | false =>
    simp only [Bool.not_true, Bool.not_false, Bool.false_eq_true, if_false, if_true,
      Bool.false_and]
    by_cases hc1 : RATE_LIMIT_PER_MINUTE ≤
        (e.minuteRequests.filter (fun t => now - t < 60)).length
    · rw [if_pos hc1]
      refine ⟨fun h => absurd h (by simp), fun h => absurd h (by simp), ?_⟩
      exact ⟨hτL2, by simpa using hm1, by simpa using hh1,
        by simpa using inv.lmin, by simpa using inv.lhour⟩
    · rw [if_neg hc1]
      by_cases hc2 : RATE_LIMIT_PER_HOUR ≤
          (e.hourRequests.filter (fun t => now - t < 3600)).length
      · rw [if_pos hc2]
        refine ⟨fun h => absurd h (by simp), fun h => absurd h (by simp), ?_⟩
        exact ⟨hτL2, by simpa using hm1, by simpa using hh1,
          by simpa using inv.lmin, by simpa using inv.lhour⟩
      · rw [if_neg hc2]
        refine ⟨fun _ => ⟨?_, ?_⟩, fun _ h => absurd h (by simp), ?_⟩
        · rw [hm1] at hc1
          simpa [countWindow] using Nat.lt_of_not_le hc1
        · rw [hh1] at hc2
          simpa [countWindow] using Nat.lt_of_not_le hc2
        · refine ⟨hτL2, ?_, ?_, ?_, ?_⟩
          · simp only []
            rw [hm1, filter_window_append _ _ _ (by omega)]
            simp
          · simp only []
            rw [hh1, filter_window_append _ _ _ (by omega)]
            simp
          · simpa using inv.lmin
          · simpa using inv.lhour
  | true =>
    simp only [Bool.not_true, Bool.false_eq_true, if_false, Bool.true_and]
    by_cases hl1 : RATE_LIMIT_LOGIN_PER_MINUTE ≤
        (e.loginMinuteRequests.filter (fun t => now - t < 60)).length
    · rw [if_pos hl1]
      simp only []
      refine ⟨fun h => absurd h (by simp), fun h => absurd h (by simp), ?_⟩
      refine ⟨le_refl now, by simpa using hm1, by simpa using hh1, ?_, ?_⟩
      · simpa using hlm1
      · simpa using hlh1
    · rw [if_neg hl1]
      by_cases hl2 : RATE_LIMIT_LOGIN_PER_HOUR ≤
          (e.loginHourRequests.filter (fun t => now - t < 3600)).length
      · rw [if_pos hl2]
        simp only []
        refine ⟨fun h => absurd h (by simp), fun h => absurd h (by simp), ?_⟩
        refine ⟨le_refl now, by simpa using hm1, by simpa using hh1, ?_, ?_⟩
        · simpa using hlm1
        · simpa using hlh1
      · rw [if_neg hl2]
        simp only []
        by_cases hc1 : RATE_LIMIT_PER_MINUTE ≤
            (e.minuteRequests.filter (fun t => now - t < 60)).length
        · rw [if_pos hc1]
          refine ⟨fun h => absurd h (by simp), fun h _ => absurd h (by simp), ?_⟩
          refine ⟨le_refl now, by simpa using hm1, by simpa using hh1, ?_, ?_⟩
          · simp only []
            rw [hlm1, filter_window_append _ _ _ (by omega)]
            simp
          · simp only []
            rw [hlh1, filter_window_append _ _ _ (by omega)]
            simp
        · rw [if_neg hc1]
          by_cases hc2 : RATE_LIMIT_PER_HOUR ≤
              (e.hourRequests.filter (fun t => now - t < 3600)).length
          · rw [if_pos hc2]
            refine ⟨fun h => absurd h (by simp), fun h _ => absurd h (by simp), ?_⟩
            refine ⟨le_refl now, by simpa using hm1, by simpa using hh1, ?_, ?_⟩
            · simp only []
              rw [hlm1, filter_window_append _ _ _ (by omega)]
              simp
            · simp only []
              rw [hlh1, filter_window_append _ _ _ (by omega)]
              simp
          · rw [if_neg hc2]
            refine ⟨fun _ => ⟨?_, ?_⟩, fun _ _ => ⟨?_, ?_⟩, ?_⟩
            · rw [hm1] at hc1
              simpa [countWindow] using Nat.lt_of_not_le hc1
            · rw [hh1] at hc2
              simpa [countWindow] using Nat.lt_of_not_le hc2
            · rw [hlm1] at hl1
              simpa [countWindow] using Nat.lt_of_not_le hl1
            · rw [hlh1] at hl2
              simpa [countWindow] using Nat.lt_of_not_le hl2
            · refine ⟨le_refl now, ?_, ?_, ?_, ?_⟩
              · simp only []
                rw [hm1, filter_window_append _ _ _ (by omega)]
                simp
              · simp only []
                rw [hh1, filter_window_append _ _ _ (by omega)]
                simp
              · simp only []
                rw [hlm1, filter_window_append _ _ _ (by omega)]
                simp
              · simp only []
                rw [hlh1, filter_window_append _ _ _ (by omega)]
                simp

theorem countWindow_self (w now : Int) (hw : 0 < w) : countWindow w now [now] = 1 := by
  simp [countWindow, List.filter_cons, decide_eq_true (show now - now < w by omega), hw]

theorem runRateTrace_bound (reqs : List (Int × Bool)) :
    ∀ (e : RateLimitEntry) (τ τL : Int) (acc lp : List Int),
    RLInv τ τL acc lp e →
    List.Chain (· ≤ ·) τ (reqs.map Prod.fst) →
    ∀ pre r post, (runRateTrace e reqs).1 = pre ++ r :: post →
      r.accepted = true →
      (countWindow 60 r.time (acc ++ acceptedTimes pre) < RATE_LIMIT_PER_MINUTE ∧
       countWindow 3600 r.time (acc ++ acceptedTimes pre) < RATE_LIMIT_PER_HOUR) ∧
      (r.isLogin = true →
        countWindow 60 r.time (lp ++ loginPassedTimes pre) < RATE_LIMIT_LOGIN_PER_MINUTE ∧
        countWindow 3600 r.time (lp ++ loginPassedTimes pre) < RATE_LIMIT_LOGIN_PER_HOUR) := by
  induction reqs with
  | nil =>
    intro e τ τL acc lp inv hchain pre r post hsplit hacc
    rw [show (runRateTrace e []).1 = [] from rfl, eq_comm] at hsplit
    simp [List.append_eq_nil] at hsplit
  | cons q rest ih =>
    obtain ⟨now, lg⟩ := q
    intro e τ τL acc lp inv hchain pre r post hsplit hacc
    rw [List.map_cons] at hchain
    cases hchain with
    | cons hτnow hchain2 =>
      obtain ⟨hgen, hlogin, hinv2⟩ := rateStep_spec e now lg τ τL acc lp inv hτnow
      rw [runRateTrace_cons_eq] at hsplit
      cases pre with
      | nil =>
        simp only [List.nil_append] at hsplit
        injection hsplit with h1 h2
        subst h1
        simp only [] at hacc
        constructor
        · have h := hgen hacc
          simpa [acceptedTimes] using h
        · intro hlg
          simp only [] at hlg
          have h := hlogin hacc hlg
          simpa [loginPassedTimes] using h
      | cons hd pre2 =>
        simp only [List.cons_append] at hsplit
        injection hsplit with h1 h2
        subst h1
        have hres := ih (checkRateLimit e now lg true).2 now (if lg then now else τL)
          (acc ++ if (checkRateLimit e now lg true).1 then [now] else [])
          (lp ++ if lg && (rateLimitLoginStage { e with
              minuteRequests := e.minuteRequests.filter (fun t => now - t < 60),
              hourRequests := e.hourRequests.filter (fun t => now - t < 3600) } now lg).1
            then [now] else [])
          hinv2 hchain2 pre2 r post h2 hacc
        constructor
        · constructor
          · have h := hres.1.1
            rw [acceptedTimes_cons]
            simpa [List.append_assoc] using h
          · have h := hres.1.2
            rw [acceptedTimes_cons]
            simpa [List.append_assoc] using h
        · intro hlg
          obtain ⟨h1, h2b⟩ := hres.2 hlg
          rw [loginPassedTimes_cons]
          constructor
          · simpa [List.append_assoc] using h1
          · simpa [List.append_assoc] using h2b

/-- C8: with rate limiting enabled, for every chronologically ordered trace of
one client's requests, at the moment any request is accepted the number of
accepted requests in the one-minute window ending there (itself included) is
at most `RATE_LIMIT_PER_MINUTE`, and likewise for the hourly window; accepted
login/register-path requests additionally respect
`RATE_LIMIT_LOGIN_PER_MINUTE` and `RATE_LIMIT_LOGIN_PER_HOUR`; and whenever
`_check_rate_limit` fails, `dispatch` rejects the request with HTTP 429. -/
theorem claimC8_rateLimit_spec :
    (∀ (reqs : List (Int × Bool)),
      List.Chain' (· ≤ ·) (reqs.map Prod.fst) →
      ∀ pre r post, (runRateTrace RateLimitEntry.empty reqs).1 = pre ++ r :: post →
        r.accepted = true →
        (countWindow 60 r.time (acceptedTimes (pre ++ [r])) ≤ RATE_LIMIT_PER_MINUTE ∧
         countWindow 3600 r.time (acceptedTimes (pre ++ [r])) ≤ RATE_LIMIT_PER_HOUR) ∧
        (r.isLogin = true →
          countWindow 60 r.time (acceptedLoginTimes (pre ++ [r])) ≤
            RATE_LIMIT_LOGIN_PER_MINUTE ∧
          countWindow 3600 r.time (acceptedLoginTimes (pre ++ [r])) ≤
            RATE_LIMIT_LOGIN_PER_HOUR)) ∧
    (∀ (e : RateLimitEntry) (now : Int) (path query : String) (cl : Option Nat)
        (en : Bool) (e2 : RateLimitEntry),
      checkRateLimit e now (isLoginPath path) en = (false, e2) →
      dispatch false true e now path query cl en = (MwOutcome.tooManyRequests, e2)) := by
  constructor
  · intro reqs hchain pre r post hsplit hacc
    cases reqs with
    | nil =>
      rw [show (runRateTrace RateLimitEntry.empty []).1 = [] from rfl, eq_comm] at hsplit
      simp [List.append_eq_nil] at hsplit
    | cons q rest =>
      obtain ⟨t0, lg0⟩ := q
      have hchain0 : List.Chain (· ≤ ·) t0 (((t0, lg0) :: rest).map Prod.fst) := by
        rw [List.map_cons]
        exact List.Chain.cons (le_refl t0) hchain
      have hinv0 : RLInv t0 t0 [] [] RateLimitEntry.empty :=
        ⟨le_refl t0, rfl, rfl, rfl, rfl⟩
      have hb := runRateTrace_bound ((t0, lg0) :: rest) RateLimitEntry.empty t0 t0 [] []
        hinv0 hchain0 pre r post hsplit hacc
      have hsplitA : acceptedTimes (pre ++ [r]) = acceptedTimes pre ++ [r.time] := by
        simp [acceptedTimes, List.filter_append, hacc]
      constructor
      · have hm := hb.1.1
        have hh := hb.1.2
        simp only [List.nil_append] at hm hh
        constructor
        · rw [hsplitA, countWindow_append, countWindow_self _ _ (by omega)]
          omega
        · rw [hsplitA, countWindow_append, countWindow_self _ _ (by omega)]
          omega
      · intro hlg
        obtain ⟨hl1, hl2⟩ := hb.2 hlg
        simp only [List.nil_append] at hl1 hl2
        have hsplitL : acceptedLoginTimes (pre ++ [r]) =
            acceptedLoginTimes pre ++ [r.time] := by
          simp [acceptedLoginTimes, List.filter_append, hacc, hlg]
        have hsub : List.Sublist (acceptedLoginTimes pre) (loginPassedTimes pre) := by
          apply List.Sublist.map
          apply sublist_filter_mono
          intro a ha hpa
          have hmem : a ∈ (runRateTrace RateLimitEntry.empty ((t0, lg0) :: rest)).1 := by
            rw [hsplit]
            exact List.mem_append_left _ ha
          have hpa2 : a.accepted = true ∧ a.isLogin = true := by simpa using hpa
          exact runRateTrace_accepted_login _ _ a hmem hpa2.1 hpa2.2
        have hle1 := countWindow_le_of_sublist 60 r.time hsub
        have hle2 := countWindow_le_of_sublist 3600 r.time hsub
        constructor
        · rw [hsplitL, countWindow_append, countWindow_self _ _ (by omega)]
          omega
        · rw [hsplitL, countWindow_append, countWindow_self _ _ (by omega)]
          omega
  · intro e now path query cl en e2 hck
    simp [dispatch, hck]

theorem claimC8_rateLimit_spec_witness :
    (runRateTrace RateLimitEntry.empty [(0, false)]).1 =
      [] ++ (⟨0, false, false, true⟩ : TracedRequest) :: [] ∧
    countWindow 60 0 (acceptedTimes [(⟨0, false, false, true⟩ : TracedRequest)]) ≤
      RATE_LIMIT_PER_MINUTE := by
  have h := (claimC8_rateLimit_spec.1 [(0, false)] (by simp) []
    ⟨0, false, false, true⟩ [] (by decide) rfl).1.1
  exact ⟨by decide, by simpa using h⟩

/-! ## C9 — SQL-injection / XSS detection in `dispatch` -/

/-- C9 counterexample.  A request to an `/admin` path from a non-whitelisted
IP is rejected with HTTP 403 by the whitelist check even though the IP is not
blocked, the rate limit is not exceeded, the body is not oversized, and the
query string matches none of the SQL-injection or XSS patterns — so it is
neither passed through nor rejected with HTTP 400 as the claim requires. -/
theorem claimC9_counterexample :
    detectSqlInjection "q=1" = false ∧
    detectXss "q=1" = false ∧
    (dispatch false false RateLimitEntry.empty 0 "/admin/users" "q=1" none true).1 =
      MwOutcome.forbidden ∧
    MwOutcome.forbidden ≠ MwOutcome.passedThrough ∧
    MwOutcome.forbidden ≠ MwOutcome.badRequest := by
  refine ⟨by decide, by decide, by decide, by decide, by decide⟩

/-- C9 amended: for a request that is not IP-blocked, is not an `/admin`
request from a non-whitelisted IP, passes the rate limit, and is not
oversized: the middleware returns HTTP 400 exactly when the query-parameter
string matches one of the SQL-injection or XSS patterns, and passes the
request through to the route handler otherwise. -/
theorem claimC9_dispatch_spec (blocked whitelisted : Bool) (e : RateLimitEntry)
    (now : Int) (path query : String) (cl : Option Nat) (en : Bool)
    (hb : blocked = false)
    (hadmin : hasSubstr "/admin".data path.data = true → whitelisted = true)
    (hrate : (checkRateLimit e now (isLoginPath path) en).1 = true)
    (hsize : validateRequestSize cl = true) :
    ((detectSqlInjection query || detectXss query) = true →
      (dispatch blocked whitelisted e now path query cl en).1 = MwOutcome.badRequest) ∧
    ((detectSqlInjection query || detectXss query) = false →
      (dispatch blocked whitelisted e now path query cl en).1 = MwOutcome.passedThrough) := by
  subst hb
  have hadm2 : (hasSubstr "/admin".data path.data && !whitelisted) = false := by
    by_cases hadm : hasSubstr "/admin".data path.data = true
    · rw [hadmin hadm]
      simp
    · have : hasSubstr "/admin".data path.data = false := by
        revert hadm
        cases hasSubstr "/admin".data path.data <;> simp
      simp [this]
  rcases hck : checkRateLimit e now (isLoginPath path) en with ⟨b, e2⟩
  rw [hck] at hrate
  simp only at hrate
  subst hrate
  constructor
  · intro hdet
    simp only [dispatch, Bool.false_eq_true, if_false, hadm2, hck, hsize,
      Bool.not_true]
    cases hsql : detectSqlInjection query with
    | true => simp
    | false =>
      rw [hsql] at hdet
      simp only [Bool.false_or] at hdet
      simp [hdet]
  · intro hdet
    have hsql : detectSqlInjection query = false := by
      revert hdet
      cases detectSqlInjection query <;> simp
    have hxss : detectXss query = false := by
      revert hdet
      cases detectXss query <;> cases detectSqlInjection query <;> simp
    simp [dispatch, hadm2, hck, hsize, hsql, hxss]

theorem claimC9_dispatch_spec_witness :
    (dispatch false false RateLimitEntry.empty 0 "/shop" "a=1=1" none false).1 =
      MwOutcome.badRequest :=
  (claimC9_dispatch_spec false false RateLimitEntry.empty 0 "/shop" "a=1=1" none false
    rfl (by decide) (by decide) (by decide)).1 (by decide)

/-! ## C10 — `BestSellingService.get_best_selling_products` -/

/-- C10 counterexample.  With no products sold and an empty cache, the miss
path returns the empty list and performs no Redis write at all (`if
redis_client and products:` is false), while the claim says the list of the
returned products' IDs — here `[]` — is stored under the key with TTL. -/
theorem claimC10_counterexample :
    getBestSellingProducts { products := [], orderItems := [] } none 12 = ([], none) ∧
    (none : Option CacheWrite) ≠
      some { key := getCacheKey 12, ids := [], ttl := CACHE_TTL } := by
  constructor
  · simp [getBestSellingProducts]
  · simp

/-- C10 amended: on a cache miss the service returns at most `limit` products,
all of them products with at least one order item, ordered by total units sold
descending, and — when the result is nonempty — writes exactly their IDs in
order under the limit's key with TTL `CACHE_TTL`; when the result is empty no
write happens.  On a cache hit it returns the products resolving the cached
IDs in cached order, dropping IDs that no longer resolve, and writes nothing. -/
theorem claimC10_bestSelling_spec (db : BestSellingDB) (limit : Nat) :
    ((getBestSellingProducts db none limit).1.length ≤ limit ∧
     List.Sorted (fun a b => totalSold db.orderItems b.id ≤ totalSold db.orderItems a.id)
       (getBestSellingProducts db none limit).1 ∧
     (∀ p ∈ (getBestSellingProducts db none limit).1, p ∈ db.products ∧
       db.orderItems.any (fun it => it.productId == p.id) = true) ∧
     ((getBestSellingProducts db none limit).1 ≠ [] →
       (getBestSellingProducts db none limit).2 =
         some { key := getCacheKey limit,
                ids := (getBestSellingProducts db none limit).1.map (fun p => p.id),
                ttl := CACHE_TTL }) ∧
     ((getBestSellingProducts db none limit).1 = [] →
       (getBestSellingProducts db none limit).2 = none)) ∧
    (∀ ids : List Nat,
      getBestSellingProducts db (some ids) limit =
        (ids.filterMap (fun pid => db.products.find? (fun p => p.id == pid)), none)) := by
  constructor
  · have hsorted : List.Sorted
        (fun a b => totalSold db.orderItems b.id ≤ totalSold db.orderItems a.id)
        ((db.products.filter
            (fun p => db.orderItems.any (fun it => it.productId == p.id))).mergeSort
          (fun a b => decide (totalSold db.orderItems b.id ≤ totalSold db.orderItems a.id))) := by
      have hp := @List.sorted_mergeSort Product
        (fun (a b : Product) =>
          decide (totalSold db.orderItems b.id ≤ totalSold db.orderItems a.id))
        (fun a b c hab hbc => by
          simp only [decide_eq_true_eq] at *
          omega)
        (fun a b => by
          simp only [Bool.or_eq_true, decide_eq_true_eq]
          omega)
        (db.products.filter (fun p => db.orderItems.any (fun it => it.productId == p.id)))
      exact hp.imp (fun h => by simpa using h)
    refine ⟨?_, ?_, ?_, ?_, ?_⟩
    · simp only [getBestSellingProducts, List.length_take]
      exact min_le_left _ _
    · simp only [getBestSellingProducts]
      exact hsorted.sublist (List.take_sublist _ _)
    · intro p hp
      simp only [getBestSellingProducts] at hp
      have hmem : p ∈ (db.products.filter
          (fun p => db.orderItems.any (fun it => it.productId == p.id))).mergeSort
            (fun a b => decide (totalSold db.orderItems b.id ≤ totalSold db.orderItems a.id)) :=
        (List.take_sublist _ _).mem hp
      rw [(List.mergeSort_perm _ _).mem_iff] at hmem
      exact ⟨(List.mem_filter.1 hmem).1, (List.mem_filter.1 hmem).2⟩
    · intro hne
      simp only [getBestSellingProducts] at hne ⊢
      rw [if_neg (by simpa [List.isEmpty_iff] using hne)]
    · intro he
      simp only [getBestSellingProducts] at he ⊢
      rw [if_pos (by simpa [List.isEmpty_iff] using he)]
  · intro ids
    rfl

theorem claimC10_bestSelling_spec_witness :
    (getBestSellingProducts exC10Db none 12).1 = [exC10Product] ∧
    (getBestSellingProducts exC10Db none 12).2 =
      some { key := getCacheKey 12, ids := [1], ttl := CACHE_TTL } := by
  have hres : (getBestSellingProducts exC10Db none 12).1 = [exC10Product] := by
    simp [getBestSellingProducts, exC10Db, exC10Product]
  have h := ((claimC10_bestSelling_spec exC10Db 12).1).2.2.2.1 (by rw [hres]; simp)
  refine ⟨hres, ?_⟩
  rw [h, hres]
  simp [exC10Product]

end ECommerce
